import Mathlib

/-!
# Verification of the ALCM event-driven core

A shallow embedding of the coordination core of the ALCM firmware
(`event_queue.c`, `timer.c`, `board_mode.c`, `vesc_serial.c`,
`hysteresis.c`) together with proofs and refutations of the claims made
about it.

Modelling conventions:
* C machine integers become `Nat`/`Int`; overflow is made explicit with
  `% 2
  ^w` where the C code can wrap (`uint32_t` countdown, `uint8_t` ids).
* `float` values that the code only compares (hysteresis thresholds,
  decoded telemetry) are modelled as `Rat`; all comparisons in the
  embedded code are order comparisons far from the binary rounding
  granularity, so the order structure is preserved.
* Function pointers become `Option Nat` (`none` models `NULL`).
* C `while` loops become fuel-indexed recursions; the fuel given at each
  call site dominates the number of iterations the C loop can make.
* Each module's mutable statics become one explicit state record that is
  threaded through the operations.
-/

set_option maxHeartbeats 1000000
set_option maxRecDepth 8192

namespace Alcm

/-- `lcm_status_t` (lcm_types.h), restricted to the constructors the
embedded functions actually return. -/
inductive LcmStatus
| success
| error
deriving DecidableEq, Repr

/-! ## Hysteresis (`hysteresis.c`) -/

/-- `hys_state_t` from hysteresis.h. -/
inductive HysState
| reset
| set
| error
deriving DecidableEq, Repr

/-- `hysteresis_t` from hysteresis.h: latch state plus the two thresholds.
Thresholds are `float32_t` in C, modelled as `Rat`. -/
structure Hysteresis where
  state : HysState
  set_threshold : Rat
  reset_threshold : Rat
deriving DecidableEq, Repr

/-- An arbitrary pre-initialization latch (the C struct before
`hysteresis_init` runs). -/
def hysUninit : Hysteresis := { state := HysState.reset, set_threshold := 0, reset_threshold := 0 }

/-- `hysteresis_init` (hysteresis.c lines 34-56), for a non-NULL pointer:
rejects `set_threshold < reset_threshold` (leaving the thresholds as they
were and marking the state `STATE_ERROR`), otherwise installs the
thresholds with state `STATE_RESET`. -/
def hysteresis_init (h : Hysteresis) (set_threshold reset_threshold : Rat) :
    LcmStatus × Hysteresis :=
  if set_threshold < reset_threshold then
    (LcmStatus.error, { h with state := HysState.error })
  else
    (LcmStatus.success,
      { state := HysState.reset, set_threshold := set_threshold,
        reset_threshold := reset_threshold })

/-- `apply_hysteresis` (hysteresis.c lines 61-84), for a non-NULL pointer:
returns the reported state and the updated latch. -/
def apply_hysteresis (h : Hysteresis) (value : Rat) : HysState × Hysteresis :=
  if h.state = HysState.reset ∧ h.set_threshold ≤ value then
    (HysState.set, { h with state := HysState.set })
  else if h.state = HysState.set ∧ value < h.reset_threshold then
    (HysState.reset, { h with state := HysState.reset })
  else
    (h.state, h)

/-- Feed a list of samples through `apply_hysteresis`, collecting the
reported states. -/
def hysteresis_run (h : Hysteresis) : List Rat → List HysState
  | [] => []
  | v :: rest =>
    let r := apply_hysteresis h v
    r.1 :: hysteresis_run r.2 rest

/-- The probe sequence of spec section 8: `S-1, S, S-1, R+0.1, R-0.1`. -/
def hysteresis_spec_sequence (S R : Rat) : List Rat :=
  [S - 1, S, S - 1, R + 1/10, R - 1/10]

/-! ## Event bus (`event_queue.c`)

Constants from config.h and the `event_type_t` enumeration in
event_queue.h (with `ENABLE_PITCH_EVENTS` and `ENABLE_ROLL_EVENTS`
defined, as in the default `TARGET_MULTI` configuration):
`EVENT_NULL = 0`, ..., `EVENT_EMERGENCY_FAULT = 26`,
`NUMBER_OF_EVENTS = 27`. -/

def EVENT_QUEUE_SIZE : Nat := 8
def NUMBER_OF_EVENTS : Nat := 27
def MAX_SUBSCRIPTIONS : Nat := 32
/-- `NUMBER_OF_EVENTS + MAX_SUBSCRIPTIONS`, the size of the subscriber
array. -/
def SUBSCRIBER_TABLE_SIZE : Nat := 59
def EVENT_NULL : Nat := 0
def EVENT_EMERGENCY_FAULT : Nat := 26
/-- `EMERGENCY_FAULT_OVERFLOW` from event_queue.h. -/
def EMERGENCY_FAULT_OVERFLOW : Nat := 4

/-- The payload union `event_data_t`, opaque to the queue: it is copied
byte-for-byte in and out.  `0` stands for the all-zero payload that a
NULL `data` argument produces via `memset`. -/
abbrev EventData := Nat

/-- `event_struct_t`: an event kind paired with its payload. -/
structure EventStruct where
  event : Nat
  data : EventData
deriving DecidableEq, Repr

instance : Inhabited EventStruct := ⟨⟨0, 0⟩⟩

/-- `subscriber_struct_t` (event_queue.c lines 28-35). -/
structure SubscriberStruct where
  event : Nat
  callback : Option Nat
  next : Nat
deriving DecidableEq, Repr

instance : Inhabited SubscriberStruct := ⟨⟨0, none, 0⟩⟩

/-- The module statics of event_queue.c: head, tail, the circular event
buffer and the subscriber table. -/
structure EqState where
  event_queue_head : Nat
  event_queue_tail : Nat
  event_queue : List EventStruct
  subscribers : List SubscriberStruct
  next_subscriber_index : Nat
deriving DecidableEq, Repr

/-- `event_queue_init` (event_queue.c lines 55-65). -/
def event_queue_init : EqState :=
  { event_queue_head := 0, event_queue_tail := 0,
    event_queue := List.replicate EVENT_QUEUE_SIZE default,
    subscribers := List.replicate SUBSCRIBER_TABLE_SIZE default,
    next_subscriber_index := NUMBER_OF_EVENTS }

/-- `is_queue_empty` (event_queue.c lines 70-75). -/
def is_queue_empty (s : EqState) : Bool :=
  s.event_queue_head = s.event_queue_tail

/-- `get_free_index` (event_queue.c lines 83-105), for a non-NULL `index`
pointer: reserves the current tail slot and advances the tail, unless the
queue is full. -/
def get_free_index (s : EqState) : Option Nat × EqState :=
  let next_tail := (s.event_queue_tail + 1) % EVENT_QUEUE_SIZE
  if next_tail ≠ s.event_queue_head then
    (some s.event_queue_tail, { s with event_queue_tail := next_tail })
  else
    (none, s)

/-- `event_queue_push` (event_queue.c lines 110-139).  Note the C
condition `(LCM_SUCCESS == get_free_index(&index)) && (event <
NUMBER_OF_EVENTS) && (event != EVENT_NULL)`: `get_free_index` is
evaluated first, so the tail has already advanced when the kind checks
fail.  A NULL `data` pointer clears the slot's payload to zero. -/
def event_queue_push (event : Nat) (data : Option EventData) (s : EqState) :
    LcmStatus × EqState :=
  match get_free_index s with
  | (some index, s1) =>
    if event < NUMBER_OF_EVENTS ∧ event ≠ EVENT_NULL then
      (LcmStatus.success,
        { s1 with event_queue := s1.event_queue.set index ⟨event, data.getD 0⟩ })
    else
      (LcmStatus.error, s1)
  | (none, s1) => (LcmStatus.error, s1)

/-- The body of `notify_subscribers`' while loop (event_queue.c lines
165-172): follow the `next` links starting at `index`, invoking each
non-NULL callback.  Invocations are recorded as `(callback, event kind,
payload)` triples.  The fuel dominates the chain length of every table
built by `subscribe_event` (links strictly increase below
`SUBSCRIBER_TABLE_SIZE`). -/
def notify_from (subs : List SubscriberStruct) (event : Nat) (data : EventData) :
    Nat → Nat → List (Nat × Nat × EventData)
  | _, 0 => []
  | index, fuel+1 =>
    if index ≠ 0 ∧ index < SUBSCRIBER_TABLE_SIZE then
      (match (subs.getD index default).callback with
       | some cb => [(cb, event, data)]
       | none => []) ++ notify_from subs event data (subs.getD index default).next fuel
    else []

/-- `notify_subscribers` (event_queue.c lines 157-180) for a non-NULL
event pointer: the loop starts at the slot indexed by the event kind. -/
def notify_subscribers (subs : List SubscriberStruct) (e : EventStruct) :
    List (Nat × Nat × EventData) :=
  notify_from subs e.event e.data e.event SUBSCRIBER_TABLE_SIZE

/-- The drain loop of `event_queue_pop_and_notify` (event_queue.c lines
193-203).  `notify_subscribers` always reports success for the non-NULL
pointer `&event_queue[head]`, so the early `break` is never taken.  The
fuel dominates the queue depth (at most `EVENT_QUEUE_SIZE - 1`). -/
def pop_loop (s : EqState) : Nat → List (Nat × Nat × EventData) × EqState
  | 0 => ([], s)
  | fuel+1 =>
    if s.event_queue_head ≠ s.event_queue_tail then
      let tr := notify_subscribers s.subscribers (s.event_queue.getD s.event_queue_head default)
      let s2 := { s with event_queue_head := (s.event_queue_head + 1) % EVENT_QUEUE_SIZE }
      let rest := pop_loop s2 fuel
      (tr ++ rest.1, rest.2)
    else ([], s)

/-- `event_queue_pop_and_notify` (event_queue.c lines 185-206), returning
the callback-invocation trace together with the final state. -/
def event_queue_pop_and_notify (s : EqState) : List (Nat × Nat × EventData) × EqState :=
  pop_loop s EVENT_QUEUE_SIZE

/-- The chain walk inside `subscribe_event` (event_queue.c lines 232-236):
`while (subscribers[current_index].next != 0U) current_index = next`. -/
def find_chain_end (subs : List SubscriberStruct) : Nat → Nat → Nat
  | index, 0 => index
  | index, fuel+1 =>
    if (subs.getD index default).next ≠ 0 then
      find_chain_end subs (subs.getD index default).next fuel
    else index

/-- `subscribe_event` (event_queue.c lines 212-263).  The overflow branch
calls `fault(EMERGENCY_FAULT_OVERFLOW)` which pushes an
`EVENT_EMERGENCY_FAULT` event into the queue. -/
def subscribe_event (event : Nat) (callback : Nat) (s : EqState) : LcmStatus × EqState :=
  if event < NUMBER_OF_EVENTS ∧ event ≠ EVENT_NULL then
    if (s.subscribers.getD event default).callback = none then
      (LcmStatus.success,
        { s with subscribers := s.subscribers.set event ⟨event, some callback, 0⟩ })
    else if s.next_subscriber_index < SUBSCRIBER_TABLE_SIZE then
      let last := find_chain_end s.subscribers event SUBSCRIBER_TABLE_SIZE
      let subs1 := s.subscribers.set s.next_subscriber_index ⟨event, some callback, 0⟩
      let subs2 := subs1.set last { subs1.getD last default with next := s.next_subscriber_index }
      (LcmStatus.success,
        { s with subscribers := subs2,
                 next_subscriber_index := s.next_subscriber_index + 1 })
    else
      (LcmStatus.error,
        (event_queue_push EVENT_EMERGENCY_FAULT (some EMERGENCY_FAULT_OVERFLOW) s).2)
  else (LcmStatus.error, s)

/-- `event_queue_get_num_events` (event_queue.c lines 268-284). -/
def event_queue_get_num_events (s : EqState) : Nat :=
  if s.event_queue_head ≤ s.event_queue_tail then
    s.event_queue_tail - s.event_queue_head
  else
    (EVENT_QUEUE_SIZE - s.event_queue_head) + s.event_queue_tail

/-- Fold a list of `(kind, callback)` subscriptions through
`subscribe_event`. -/
def apply_subscribes (ops : List (Nat × Nat)) (s : EqState) : EqState :=
  ops.foldl (fun st op => (subscribe_event op.1 op.2 st).2) s

/-- Fold a list of `(kind, payload)` pushes through `event_queue_push`. -/
def apply_pushes (ps : List (Nat × EventData)) (s : EqState) : EqState :=
  ps.foldl (fun st p => (event_queue_push p.1 (some p.2) st).2) s

/-- The callbacks subscribed to `event`, in subscription order, as read
off a list of subscription operations. -/
def subscribed_callbacks (ops : List (Nat × Nat)) (event : Nat) : List Nat :=
  (ops.filter (fun op => op.1 = event)).map Prod.snd

/-! ## Timer subsystem (`timer.c`)

`MAX_TIMERS = 8` (config.h), `INVALID_TIMER_ID = 0` (timer.h),
`timer_id_t` is `uint8_t`, the countdown `counter` is `uint32_t`. -/

def MAX_TIMERS : Nat := 8
def INVALID_TIMER_ID : Nat := 0
/-- `2^32`, the modulus of the `uint32_t` countdown counter. -/
def UINT32_MOD : Nat := 4294967296
/-- `2^8`, the modulus of the `uint8_t` timer id counter. -/
def UINT8_MOD : Nat := 256

/-- `timer_t` (timer.c lines 37-44). -/
structure CTimer where
  timeout : Nat
  counter : Nat
  callback : Option Nat
  repeats : Bool
  id : Nat
deriving DecidableEq, Repr

instance : Inhabited CTimer := ⟨⟨0, 0, none, false, 0⟩⟩

/-- The module statics of timer.c: the id generator and the fixed pool. -/
structure TimerState where
  next_timer_id : Nat
  timers : List CTimer
deriving DecidableEq, Repr

/-- The state `timer_init` (timer.c lines 56-68) leaves behind:
`next_timer_id = FIRST_TIMER_ID = 1` and a zeroed pool. -/
def timer_init : TimerState :=
  { next_timer_id := 1, timers := List.replicate MAX_TIMERS default }

/-- `find_timer_id_by_callback` (timer.c lines 70-82): the id stored in
the first slot whose callback matches, else `INVALID_TIMER_ID`. -/
def find_timer_id_by_callback (ts : TimerState) (cb : Nat) : Nat :=
  match ts.timers.find? (fun t => t.callback = some cb) with
  | some t => t.id
  | none => INVALID_TIMER_ID

/-- `find_timer_by_id` (timer.c lines 90-102) returns a pointer to the
first slot with the given id; we model the pointer as the slot index. -/
def find_timer_index_by_id (ts : TimerState) (i : Nat) : Option Nat :=
  ts.timers.findIdx? (fun t => t.id = i)

/-- `find_available_timer` (timer.c lines 109-121), as a slot index. -/
def find_available_timer_index (ts : TimerState) : Option Nat :=
  ts.timers.findIdx? (fun t => t.callback = none)

/-- The loop of `find_next_timer_id` (timer.c lines 128-137):
`next_timer_id` is a `uint8_t`, so the increment wraps mod 256.  The fuel
256 dominates the loop: with at most 8 occupied ids among 256 candidates
the loop always exits early (proved below in `find_next_loop_not_taken`). -/
def find_next_timer_id_loop (timers : List CTimer) : Nat → Nat → Nat
  | cand, 0 => cand
  | cand, fuel+1 =>
    if timers.any (fun t => t.id = cand) then
      find_next_timer_id_loop timers ((cand + 1) % UINT8_MOD) fuel
    else cand

/-- `find_next_timer_id` (timer.c lines 128-137): advances the static
`next_timer_id` until no pool slot (live or stale) holds it. -/
def find_next_timer_id (ts : TimerState) : Nat × TimerState :=
  let r := find_next_timer_id_loop ts.timers ts.next_timer_id UINT8_MOD
  (r, { ts with next_timer_id := r })

/-- `set_timer` (timer.c lines 142-176).  The pool-exhaustion branch calls
`fault(EMERGENCY_FAULT_OVERFLOW)` (an event-queue push, outside this
module's state) and returns `INVALID_TIMER_ID`.  In the re-arm branch the
C code dereferences `find_timer_by_id(timer_id)` unconditionally; that
pointer is non-NULL because `timer_id` was read out of some slot, so the
unreachable `none` case is modelled as a no-op. -/
def set_timer (timeout : Nat) (cb : Nat) (rep : Bool) (ts : TimerState) :
    Nat × TimerState :=
  let timer_id := find_timer_id_by_callback ts cb
  if timer_id = INVALID_TIMER_ID then
    match find_available_timer_index ts with
    | some i =>
      let r := find_next_timer_id ts
      (r.1, { r.2 with timers := r.2.timers.set i ⟨timeout, timeout, some cb, rep, r.1⟩ })
    | none => (INVALID_TIMER_ID, ts)
  else
    match find_timer_index_by_id ts timer_id with
    | some i =>
      let t := ts.timers.getD i default
      let t2 := { t with timeout := timeout, counter := timeout, repeats := rep }
      (timer_id, { ts with timers := ts.timers.set i t2 })
    | none => (timer_id, ts)

/-- `cancel_timer` (timer.c lines 181-194). -/
def cancel_timer (timer_id : Nat) (ts : TimerState) : LcmStatus × TimerState :=
  if timer_id ≠ INVALID_TIMER_ID then
    match find_timer_index_by_id ts timer_id with
    | some i =>
      let t := ts.timers.getD i default
      (LcmStatus.success, { ts with timers := ts.timers.set i ({ t with callback := none }) })
    | none => (LcmStatus.error, ts)
  else (LcmStatus.error, ts)

/-- `is_timer_active` (timer.c lines 199-211). -/
def is_timer_active (timer_id : Nat) (ts : TimerState) : Bool :=
  if timer_id ≠ INVALID_TIMER_ID then
    match find_timer_index_by_id ts timer_id with
    | some i => (ts.timers.getD i default).callback ≠ none
    | none => false
  else false

/-- `timer_active_count` (timer.c lines 257-268). -/
def timer_active_count (ts : TimerState) : Nat :=
  (ts.timers.filter (fun t => t.callback ≠ none)).length

/-- `is_timer_repeating` (timer.c lines 273-285). -/
def is_timer_repeating (timer_id : Nat) (ts : TimerState) : Bool :=
  if timer_id ≠ INVALID_TIMER_ID then
    match find_timer_index_by_id ts timer_id with
    | some i => (ts.timers.getD i default).repeats
    | none => false
  else false

/-- `get_timer_remaining` (timer.c lines 290-302). -/
def get_timer_remaining (timer_id : Nat) (ts : TimerState) : Nat :=
  if timer_id ≠ INVALID_TIMER_ID then
    match find_timer_index_by_id ts timer_id with
    | some i => (ts.timers.getD i default).counter
    | none => 0
  else 0

/-- One slot iteration of the system-tick handler (timer.c lines 221-251).
`eff` abstracts whatever the invoked callback does to the timer pool
(callbacks may call `set_timer`/`cancel_timer`; the code re-checks the
counter afterwards exactly to detect that).  The `uint32_t` decrement
`counter--` is `(counter + 2^32 - 1) % 2^32`.  Invoked callbacks are
appended to the trace. -/
def timer_tick_slot (eff : Nat → Nat → TimerState → TimerState) (tick : Nat) (acc : TimerState × List Nat)
    (i : Nat) : TimerState × List Nat :=
  let ts := acc.1
  let t := ts.timers.getD i default
  match t.callback with
  | none => acc
  | some cb =>
    let c2 := (t.counter + (UINT32_MOD - 1)) % UINT32_MOD
    let ts1 := { ts with timers := ts.timers.set i ({ t with counter := c2 }) }
    if c2 = 0 then
      let ts2 := eff cb tick ts1
      let t2 := ts2.timers.getD i default
      if t2.counter = 0 then
        if t2.repeats then
          ({ ts2 with timers := ts2.timers.set i ({ t2 with counter := t2.timeout }) },
            acc.2 ++ [cb])
        else
          ({ ts2 with timers := ts2.timers.set i ({ t2 with callback := none }) },
            acc.2 ++ [cb])
      else (ts2, acc.2 ++ [cb])
    else (ts1, acc.2)

/-- `timer_system_tick_event_handler` (timer.c lines 217-252): iterate the
slot handler over all `MAX_TIMERS` slots in index order. -/
def timer_system_tick_event_handler (eff : Nat → Nat → TimerState → TimerState) (tick : Nat)
    (ts : TimerState) : TimerState × List Nat :=
  (List.range MAX_TIMERS).foldl (timer_tick_slot eff tick) (ts, [])

/-! ## Serial protocol decoder (`vesc_serial.c`)

Constants from vesc_serial.c: `START_BYTE = 0x02`, `END_BYTE = 0x03`,
`MAX_PACKET_LENGTH = 32`, `MAX_OUTSTANDING_PACKETS = 5`,
`COMM_GET_VALUES_SETUP_SELECTIVE = 51`, expected response length 16,
expected mask `0x101b0 = 65968`.  Fault codes from event_queue.h:
`EMERGENCY_FAULT_OUT_OF_BOUNDS = 2`, `EMERGENCY_FAULT_INVALID_LENGTH = 9`,
`EMERGENCY_FAULT_VESC = 10`, `EMERGENCY_FAULT_VESC_COMM_TIMEOUT = 11`.
The `ENABLE_IMU_EVENTS` sections are compiled out in the modelled
configuration. -/

def START_BYTE : Nat := 2
def END_BYTE : Nat := 3
def MAX_PACKET_LENGTH : Nat := 32
def MAX_OUTSTANDING_PACKETS : Nat := 5
def COMM_GET_VALUES_SETUP_SELECTIVE : Nat := 51
def COMM_GET_VALUES_SETUP_SELECTIVE_RESPONSE_LENGTH : Nat := 16
def COMM_GET_VALUES_SETUP_SELECTIVE_MASK : Nat := 65968
def EMERGENCY_FAULT_OUT_OF_BOUNDS : Nat := 2
def EMERGENCY_FAULT_INVALID_LENGTH : Nat := 9
def EMERGENCY_FAULT_VESC : Nat := 10
def EMERGENCY_FAULT_VESC_COMM_TIMEOUT : Nat := 11

/-- `comm_get_values_setup_selective_t` (vesc_serial.c lines 55-64), with
`ENABLE_VOLTAGE_MONITORING` undefined.  The retained last-known-good
telemetry. -/
structure Telemetry where
  duty_cycle : Rat
  rpm : Int
  battery_level : Rat
  fault : Nat
deriving DecidableEq, Repr

/-- The zero-initialized telemetry record. -/
def telemetry_zero : Telemetry := { duty_cycle := 0, rpm := 0, battery_level := 0, fault := 0 }

/-- The events vesc_serial.c pushes into the event bus. -/
inductive VescEvent
| dutyCycleChanged (v : Rat)
| rpmChanged (v : Int)
| batteryLevelChanged (v : Rat)
| vescAlive
| emergencyFault (code : Nat)
deriving DecidableEq, Repr

/-- The module statics of vesc_serial.c that the modelled operations
touch, plus a trace of pushed events.  The ring buffer is modelled by its
pending byte list (front = next byte to pop). -/
structure VsState where
  rx_buffer : List Nat
  comm_get_values : Telemetry
  vesc_alive : Bool
  outstanding : Nat
  callback_set : Bool
  pushed : List VescEvent
deriving DecidableEq, Repr

/-- `buffer_get_int16` (vesc_serial.c lines 181-184): big-endian bytes to
a two's-complement 16-bit signed value. -/
def buffer_get_int16 (b0 b1 : Nat) : Int :=
  let n := (b0 % 256) * 256 + (b1 % 256)
  if n < 32768 then (n : Int) else (n : Int) - 65536

/-- `buffer_get_uint32` (vesc_serial.c lines 226-229). -/
def buffer_get_uint32 (b0 b1 b2 b3 : Nat) : Nat :=
  (b0 % 256) * 16777216 + (b1 % 256) * 65536 + (b2 % 256) * 256 + (b3 % 256)

/-- `buffer_get_int32` (vesc_serial.c lines 209-215): big-endian bytes to
a two's-complement 32-bit signed value. -/
def buffer_get_int32 (b0 b1 b2 b3 : Nat) : Int :=
  let n := buffer_get_uint32 b0 b1 b2 b3
  if n < 2147483648 then (n : Int) else (n : Int) - 4294967296

/-- The duty cycle decoded by
`buffer_get_float16(&payload[5], 10.0f)`: a signed 16-bit value scaled by
1/10 (exact in `Rat`; the float division only differs by amounts far
below the 0.1 quantization, on either side of every comparison used). -/
def decoded_duty (payload : List Nat) : Rat :=
  (buffer_get_int16 (payload.getD 5 0) (payload.getD 6 0) : Rat) / 10

/-- The RPM decoded by `buffer_get_float32(&payload[7], 1.0f)` and stored
into the `int32_t` field: the float round trip is exact on every value
the sanity check admits, so it is modelled as the raw 32-bit integer. -/
def decoded_rpm (payload : List Nat) : Int :=
  buffer_get_int32 (payload.getD 7 0) (payload.getD 8 0) (payload.getD 9 0) (payload.getD 10 0)

/-- The battery level decoded by `buffer_get_float16(&payload[13], 10.0f)`. -/
def decoded_battery (payload : List Nat) : Rat :=
  (buffer_get_int16 (payload.getD 13 0) (payload.getD 14 0) : Rat) / 10

/-- The mask embedded at bytes 1-4 of the response payload. -/
def decoded_mask (payload : List Nat) : Nat :=
  buffer_get_uint32 (payload.getD 1 0) (payload.getD 2 0) (payload.getD 3 0) (payload.getD 4 0)

/-- `process_comm_get_values_setup_selective` (vesc_serial.c lines
335-436), with `ENABLE_VOLTAGE_MONITORING` undefined: length check, mask
check, decode plus range-sanity-check each field (aborting with a fault
push on any violation), then publish change events and update the
retained telemetry field by field. -/
def process_comm_get_values_setup_selective (payload : List Nat) (packet_length : Nat)
    (s : VsState) : VsState :=
  if packet_length ≠ COMM_GET_VALUES_SETUP_SELECTIVE_RESPONSE_LENGTH then
    { s with pushed := s.pushed ++ [VescEvent.emergencyFault EMERGENCY_FAULT_INVALID_LENGTH] }
  else if decoded_mask payload ≠ COMM_GET_VALUES_SETUP_SELECTIVE_MASK then
    { s with pushed := s.pushed ++ [VescEvent.emergencyFault EMERGENCY_FAULT_OUT_OF_BOUNDS] }
  else if decoded_duty payload < -100 ∨ 100 < decoded_duty payload then
    { s with pushed := s.pushed ++ [VescEvent.emergencyFault EMERGENCY_FAULT_OUT_OF_BOUNDS] }
  else if decoded_rpm payload < -25000 ∨ 25000 < decoded_rpm payload then
    { s with pushed := s.pushed ++ [VescEvent.emergencyFault EMERGENCY_FAULT_OUT_OF_BOUNDS] }
  else if decoded_battery payload < 0 ∨ 100 < decoded_battery payload then
    { s with pushed := s.pushed ++ [VescEvent.emergencyFault EMERGENCY_FAULT_OUT_OF_BOUNDS] }
  else
    let duty := decoded_duty payload
    let rpm := decoded_rpm payload
    let battery := decoded_battery payload
    let faultCode := payload.getD 15 0
    let s1 := if duty ≠ s.comm_get_values.duty_cycle then
        { s with pushed := s.pushed ++ [VescEvent.dutyCycleChanged duty],
                 comm_get_values := { s.comm_get_values with duty_cycle := duty } }
      else s
    let s2 := if rpm ≠ s1.comm_get_values.rpm then
        { s1 with pushed := s1.pushed ++ [VescEvent.rpmChanged rpm],
                  comm_get_values := { s1.comm_get_values with rpm := rpm } }
      else s1
    let s3 := if battery ≠ s2.comm_get_values.battery_level then
        { s2 with pushed := s2.pushed ++ [VescEvent.batteryLevelChanged battery],
                  comm_get_values := { s2.comm_get_values with battery_level := battery } }
      else s2
    if faultCode ≠ s3.comm_get_values.fault then
      { s3 with pushed := s3.pushed ++ [VescEvent.emergencyFault EMERGENCY_FAULT_VESC],
                comm_get_values := { s3.comm_get_values with fault := faultCode } }
    else s3

/-- `process_packet` (vesc_serial.c lines 445-470): liveness flip plus
dispatch on the command id (first payload byte). -/
def process_packet (payload : List Nat) (packet_length : Nat) (s : VsState) : VsState :=
  let s1 := if s.vesc_alive = false then
      { s with pushed := s.pushed ++ [VescEvent.vescAlive], vesc_alive := true }
    else s
  if payload.getD 0 0 = COMM_GET_VALUES_SETUP_SELECTIVE then
    process_comm_get_values_setup_selective payload packet_length s1
  else s1

/-- `clear_outstanding_packets` (vesc_serial.c lines 131-140): invoke and
clear the stored callback (the invocation itself belongs to another
module), then zero the outstanding count. -/
def clear_outstanding_packets (s : VsState) : VsState :=
  { s with callback_set := false, outstanding := 0 }

/-- `ring_buffer_pop`: succeeds exactly when the buffer is non-empty. -/
def ring_buffer_pop (buf : List Nat) : Option (Nat × List Nat) :=
  match buf with
  | [] => none
  | b :: rest => some (b, rest)

/-- Pop `n` bytes one at a time (the payload loop of the RX handler).
`none` is returned only when the buffer ran dry, in which case every
buffered byte has been consumed. -/
def ring_buffer_popN : Nat → List Nat → Option (List Nat × List Nat)
  | 0, buf => some ([], buf)
  | n+1, buf =>
    match buf with
    | [] => none
    | b :: rest =>
      match ring_buffer_popN n rest with
      | some r => some (b :: r.1, r.2)
      | none => none

/-- The scan loop of the RX event handler (vesc_serial.c lines 495-542).
`byte` is the C local of the same name (0 before the first pop); the loop
runs while `byte != START_BYTE` and a byte can be popped.  After parsing
a frame the loop re-checks `byte`, which then holds the frame's last
consumed byte.  Early `return`s on a truncated frame leave the buffer
empty (the pops that failed had consumed everything).  `crc16` abstracts
`crc16_ccitt` (crc16_ccitt.c is not part of the analysed sources; every
theorem below holds for an arbitrary CRC function).  Fuel: every
recursive call consumes at least one buffered byte. -/
def rx_scan (crc16 : List Nat → Nat) : Nat → VsState → Nat → VsState
  | _, s, 0 => s
  | byte, s, fuel+1 =>
    if byte = START_BYTE then s
    else
      match ring_buffer_pop s.rx_buffer with
      | none => s
      | some (b, rest) =>
        let s1 := { s with rx_buffer := rest }
        if b = START_BYTE then
          match ring_buffer_pop rest with
          | none => { s1 with rx_buffer := [] }
          | some (packet_length, rest1) =>
            if MAX_PACKET_LENGTH < packet_length then { s1 with rx_buffer := rest1 }
            else
              match ring_buffer_popN packet_length rest1 with
              | none => { s1 with rx_buffer := [] }
              | some (payload, rest2) =>
                match ring_buffer_pop rest2 with
                | none => { s1 with rx_buffer := [] }
                | some (c1, rest3) =>
                  match ring_buffer_pop rest3 with
                  | none => { s1 with rx_buffer := [] }
                  | some (c2, rest4) =>
                    match ring_buffer_pop rest4 with
                    | none => { s1 with rx_buffer := [] }
                    | some (endb, rest5) =>
                      let crc := (c1 % 256) * 256 + (c2 % 256)
                      let s2 := { s1 with rx_buffer := rest5 }
                      let s3 := if endb = END_BYTE ∧ crc16 payload = crc then
                          process_packet payload packet_length s2
                        else s2
                      rx_scan crc16 endb s3 fuel
        else rx_scan crc16 b s1 fuel

/-- `vesc_serial_rx_event_handler` (vesc_serial.c lines 481-543): reset
the outstanding count first, then scan the buffered bytes for frames. -/
def vesc_serial_rx_event_handler (crc16 : List Nat → Nat) (s : VsState) : VsState :=
  let s0 := clear_outstanding_packets s
  rx_scan crc16 0 s0 (s0.rx_buffer.length + 1)

/-- `vesc_serial_tx_timer_callback` (vesc_serial.c lines 590-650), the
poll-timer callback: only while the VESC is alive, post-increment the
outstanding count (a `uint8_t`) and compare the old value against
`MAX_OUTSTANDING_PACKETS`; on overflow raise a communication-timeout
fault, clear the alive flag and zero the count.  The hardware send of the
precomputed request frame has no effect on this state. -/
def vesc_serial_tx_timer_callback (s : VsState) : VsState :=
  if s.vesc_alive then
    let old := s.outstanding
    let s1 := { s with outstanding := (s.outstanding + 1) % UINT8_MOD }
    if MAX_OUTSTANDING_PACKETS ≤ old then
      clear_outstanding_packets
        { s1 with pushed := s1.pushed ++ [VescEvent.emergencyFault EMERGENCY_FAULT_VESC_COMM_TIMEOUT],
                  vesc_alive := false }
    else s1
  else s

/-! ## Board-mode state machine (`board_mode.c`)

Thresholds from config.h: `STOPPED_RPM_THRESHOLD = 20`,
`SLOW_RPM_THRESHOLD = 2000`, `DUTY_CYCLE_DANGER_THRESHOLD = 90`,
`DUTY_CYCLE_WARNING_THRESHOLD = 80`; the reset thresholds computed in
`board_mode_init` are `threshold - threshold*0.1` for the RPM latches and
`threshold - 5` for the duty-cycle latches.  `ENABLE_ROLL_EVENTS` is
defined in the default configuration, so `update_riding_submode` carries
the plus-minus-45-degree roll guard and the command handler receives
`EVENT_IMU_ROLL_CHANGED`.

The idle timer is modelled by two booleans: `idle_timer_id_valid` is
`board_mode_idle_timer_id != INVALID_TIMER_ID` and `idle_timer_armed` is
whether the idle-timer pool slot (identified, per timer.c's dedup rule,
by the `board_mode_idle_timer_handler` callback) is live.  `set_timer`
always succeeds for this callback (re-arming reuses its dedicated slot),
`cancel_timer` disarms it, and a one-shot expiry disarms it before the
callback runs; the callback's own `set_timer` calls then re-arm the same
slot, which is exactly the re-arm-detection path of the tick handler. -/

def STOPPED_RPM_THRESHOLD : Rat := 20
def SLOW_RPM_THRESHOLD : Rat := 2000
def DUTY_CYCLE_DANGER_THRESHOLD : Rat := 90
def DUTY_CYCLE_WARNING_THRESHOLD : Rat := 80

/-- `board_mode_t` (board_mode.h lines 31-37). -/
inductive BoardModeT
| unknown
| off
| booting
| idle
| riding
| charging
| fault
deriving DecidableEq, Repr

/-- `board_submode_t` (board_mode.h lines 46-64). -/
inductive BoardSubmodeT
| undefined
| idle_active
| idle_default
| idle_dozing
| idle_shutting_down
| idle_config
| riding_stopped
| riding_slow
| riding_normal
| riding_warning
| riding_danger
| fault_internal
| fault_vesc
deriving DecidableEq, Repr

/-- The module statics of board_mode.c. -/
structure BmState where
  board_mode : BoardModeT
  board_submode : BoardSubmodeT
  idle_timer_id_valid : Bool
  idle_timer_armed : Bool
  stopped_rpm_hysteresis : Hysteresis
  slow_rpm_hysteresis : Hysteresis
  danger_hysteresis : Hysteresis
  warning_hysteresis : Hysteresis
deriving DecidableEq, Repr

/-- The external readings board_mode.c pulls from other modules while
handling an event: `vesc_serial_get_duty_cycle`, `vesc_serial_get_rpm`,
`vesc_serial_get_imu_roll` (degrees) and `footpads_get_state` (bitmask,
`NONE_FOOTPAD = 0`). -/
structure BmInputs where
  duty_cycle : Rat
  rpm : Int
  imu_roll : Rat
  footpads : Nat
deriving DecidableEq, Repr

/-- The state `board_mode_init` (board_mode.c lines 59-105) leaves
behind: mode OFF, submode UNDEFINED, no idle timer, and the four latches
initialized.  (In C the RPM reset thresholds are
`threshold - threshold*0.1f`, within one part in ten million of the
exact values 18 and 1800 used here; no comparison in any claim probes
that gap.) -/
def board_mode_init : BmState :=
  { board_mode := BoardModeT.off, board_submode := BoardSubmodeT.undefined,
    idle_timer_id_valid := false, idle_timer_armed := false,
    stopped_rpm_hysteresis := (hysteresis_init hysUninit STOPPED_RPM_THRESHOLD 18).2,
    slow_rpm_hysteresis := (hysteresis_init hysUninit SLOW_RPM_THRESHOLD 1800).2,
    danger_hysteresis := (hysteresis_init hysUninit DUTY_CYCLE_DANGER_THRESHOLD 85).2,
    warning_hysteresis := (hysteresis_init hysUninit DUTY_CYCLE_WARNING_THRESHOLD 75).2 }

/-- `set_board_mode` (board_mode.c lines 138-210).  On an actual change it
pushes `EVENT_BOARD_MODE_CHANGED` (delivered to other modules, not part
of this state) and manages the idle timer: entering any timed IDLE
submode (re-)arms it, entering IDLE/CONFIG, RIDING or FAULT cancels a
live one, entering an invalid IDLE submode pushes a fault event, and
every other mode leaves the timer untouched.  The switch block (lines
156-207) is factored out as `board_mode_manage_timers`; it dispatches on
the just-updated mode and submode exactly as the C switch does. -/
def board_mode_manage_timers (s1 : BmState) : BmState :=
  match s1.board_mode with
  | BoardModeT.idle =>
    match s1.board_submode with
    | BoardSubmodeT.idle_active =>
      { s1 with idle_timer_armed := true, idle_timer_id_valid := true }
    | BoardSubmodeT.idle_default =>
      { s1 with idle_timer_armed := true, idle_timer_id_valid := true }
    | BoardSubmodeT.idle_dozing =>
      { s1 with idle_timer_armed := true, idle_timer_id_valid := true }
    | BoardSubmodeT.idle_shutting_down =>
      { s1 with idle_timer_armed := true, idle_timer_id_valid := true }
    | BoardSubmodeT.idle_config =>
      if s1.idle_timer_id_valid ∧ s1.idle_timer_armed then
        { s1 with idle_timer_armed := false }
      else s1
    | _ => s1
  | BoardModeT.riding =>
    if s1.idle_timer_id_valid ∧ s1.idle_timer_armed then
      { s1 with idle_timer_armed := false }
    else s1
  | BoardModeT.fault =>
    if s1.idle_timer_id_valid ∧ s1.idle_timer_armed then
      { s1 with idle_timer_armed := false }
    else s1
  | _ => s1

/-- `set_board_mode` proper: on an actual change, update the pair and run
the timer-management switch. -/
def set_board_mode (mode : BoardModeT) (submode : BoardSubmodeT) (s : BmState) : BmState :=
  if s.board_mode ≠ mode ∨ s.board_submode ≠ submode then
    board_mode_manage_timers { s with board_mode := mode, board_submode := submode }
  else s

/-- `update_riding_submode` (board_mode.c lines 352-407): the roll guard
(compiled in with `ENABLE_ROLL_EVENTS`) freezes the submode while the
board is on its side; otherwise the four latches are consulted in the
`else if` cascade DANGER, WARNING, NORMAL (slow latch), SLOW (stopped
latch), STOPPED.  Each consulted latch is updated in place; a latch
behind a taken earlier branch is not consulted (C short-circuit). -/
def update_riding_submode (inp : BmInputs) (s : BmState) : BmState :=
  if 45 < inp.imu_roll ∨ inp.imu_roll < -45 then s
  else
    let rd := apply_hysteresis s.danger_hysteresis inp.duty_cycle
    let sD := { s with danger_hysteresis := rd.2 }
    if rd.1 = HysState.set then
      if sD.board_submode ≠ BoardSubmodeT.riding_danger then
        set_board_mode BoardModeT.riding BoardSubmodeT.riding_danger sD
      else sD
    else
      let rw := apply_hysteresis sD.warning_hysteresis inp.duty_cycle
      let sW := { sD with warning_hysteresis := rw.2 }
      if rw.1 = HysState.set then
        if sW.board_submode ≠ BoardSubmodeT.riding_warning then
          set_board_mode BoardModeT.riding BoardSubmodeT.riding_warning sW
        else sW
      else
        let rs := apply_hysteresis sW.slow_rpm_hysteresis (inp.rpm.natAbs : Rat)
        let sS := { sW with slow_rpm_hysteresis := rs.2 }
        if rs.1 = HysState.set then
          if sS.board_submode ≠ BoardSubmodeT.riding_normal then
            set_board_mode BoardModeT.riding BoardSubmodeT.riding_normal sS
          else sS
        else
          let rt := apply_hysteresis sS.stopped_rpm_hysteresis (inp.rpm.natAbs : Rat)
          let sT := { sS with stopped_rpm_hysteresis := rt.2 }
          if rt.1 = HysState.set then
            if sT.board_submode ≠ BoardSubmodeT.riding_slow then
              set_board_mode BoardModeT.riding BoardSubmodeT.riding_slow sT
            else sT
          else
            if sT.board_submode ≠ BoardSubmodeT.riding_stopped then
              set_board_mode BoardModeT.riding BoardSubmodeT.riding_stopped sT
            else sT

/-- The events dispatched to `board_mode_command_event_handler`
(board_mode.c lines 231-299). -/
inductive BmCommandEvent
| command_boot
| command_shutdown
| command_mode_config (enable : Bool)
| button_up
| imu_roll_changed (roll : Rat)
deriving DecidableEq, Repr

/-- `board_mode_command_event_handler` (board_mode.c lines 231-299), with
the `ENABLE_ROLL_EVENTS` case compiled in.  The NACK push in the CONFIG
branch goes to the event bus and does not touch this state. -/
def board_mode_command_event_handler (ev : BmCommandEvent) (s : BmState) : BmState :=
  match ev with
  | BmCommandEvent.command_boot =>
    if s.board_mode = BoardModeT.off then
      set_board_mode BoardModeT.booting BoardSubmodeT.undefined s
    else s
  | BmCommandEvent.command_shutdown =>
    set_board_mode BoardModeT.idle BoardSubmodeT.idle_shutting_down s
  | BmCommandEvent.command_mode_config enable =>
    if enable then
      if s.board_mode = BoardModeT.idle then
        set_board_mode BoardModeT.idle BoardSubmodeT.idle_config s
      else s
    else
      set_board_mode BoardModeT.idle BoardSubmodeT.idle_active s
  | BmCommandEvent.button_up =>
    if s.board_mode = BoardModeT.idle ∧ s.board_submode = BoardSubmodeT.idle_shutting_down then
      set_board_mode BoardModeT.idle BoardSubmodeT.idle_active s
    else s
  | BmCommandEvent.imu_roll_changed roll =>
    if s.board_mode = BoardModeT.idle ∧
        (s.board_submode = BoardSubmodeT.idle_active ∨
         s.board_submode = BoardSubmodeT.idle_default) ∧
        (45 < roll ∨ roll < -45) then
      set_board_mode BoardModeT.idle BoardSubmodeT.idle_dozing s
    else if s.board_mode = BoardModeT.idle ∧ s.board_submode = BoardSubmodeT.idle_dozing ∧
        (roll ≤ 45 ∧ -45 ≤ roll) then
      set_board_mode BoardModeT.idle BoardSubmodeT.idle_active s
    else s

/-- `board_mode_vesc_alive_event_handler` (board_mode.c lines 221-229). -/
def board_mode_vesc_alive_event_handler (s : BmState) : BmState :=
  if s.board_mode = BoardModeT.booting then
    set_board_mode BoardModeT.idle BoardSubmodeT.idle_active s
  else s

/-- `board_mode_rpm_changed_event_handler` (board_mode.c lines 422-446):
`rpm` is the event payload `data->rpm`; readings of other modules come
from `inp`. -/
def board_mode_rpm_changed_event_handler (rpm : Int) (inp : BmInputs) (s : BmState) : BmState :=
  match s.board_mode with
  | BoardModeT.idle =>
    if 0 < rpm.natAbs then update_riding_submode inp s else s
  | BoardModeT.riding =>
    if rpm.natAbs = 0 ∧ inp.footpads = 0 then
      set_board_mode BoardModeT.idle BoardSubmodeT.idle_active s
    else
      update_riding_submode inp s
  | _ => s

/-- `board_mode_duty_cycle_changed_event_handler` (board_mode.c lines
459-466). -/
def board_mode_duty_cycle_changed_event_handler (inp : BmInputs) (s : BmState) : BmState :=
  if s.board_mode = BoardModeT.riding then update_riding_submode inp s else s

/-- `board_mode_emergency_fault_event_handler` (board_mode.c lines
479-482). -/
def board_mode_emergency_fault_event_handler (s : BmState) : BmState :=
  set_board_mode BoardModeT.fault BoardSubmodeT.undefined s

/-- `board_mode_footpad_changed_event_handler` (board_mode.c lines
497-524): `pads` is the event payload `data->footpads_state`. -/
def board_mode_footpad_changed_event_handler (pads : Nat) (inp : BmInputs) (s : BmState) :
    BmState :=
  match s.board_mode with
  | BoardModeT.idle =>
    if s.board_submode ≠ BoardSubmodeT.idle_config then
      if pads ≠ 0 then update_riding_submode inp s else s
    else s
  | BoardModeT.riding =>
    if pads = 0 ∧ inp.rpm = 0 then
      set_board_mode BoardModeT.idle BoardSubmodeT.idle_active s
    else s
  | _ => s

/-- `board_mode_idle_timer_handler` (board_mode.c lines 312-336).  The
`system_tick` argument is unused by the body. -/
def board_mode_idle_timer_handler (s : BmState) : BmState :=
  if s.board_mode = BoardModeT.idle then
    match s.board_submode with
    | BoardSubmodeT.idle_active =>
      set_board_mode BoardModeT.idle BoardSubmodeT.idle_default s
    | BoardSubmodeT.idle_default =>
      set_board_mode BoardModeT.idle BoardSubmodeT.idle_dozing s
    | BoardSubmodeT.idle_dozing =>
      set_board_mode BoardModeT.idle BoardSubmodeT.idle_shutting_down s
    | BoardSubmodeT.idle_shutting_down =>
      set_board_mode BoardModeT.off BoardSubmodeT.undefined s
    | _ => s
  else s

/-- One externally triggered step of the board-mode machine: any event a
subscriber registration of `board_mode_init` can deliver, with arbitrary
payloads and arbitrary readings from the other modules, plus the expiry
of a live idle timer (the one-shot slot is released before the callback
body runs; the body's own `set_timer` calls re-arm it). -/
inductive BmStep : BmState → BmState → Prop
| command (ev : BmCommandEvent) (s : BmState) :
    BmStep s (board_mode_command_event_handler ev s)
| vesc_alive (s : BmState) :
    BmStep s (board_mode_vesc_alive_event_handler s)
| rpm_changed (rpm : Int) (inp : BmInputs) (s : BmState) :
    BmStep s (board_mode_rpm_changed_event_handler rpm inp s)
| duty_cycle_changed (inp : BmInputs) (s : BmState) :
    BmStep s (board_mode_duty_cycle_changed_event_handler inp s)
| footpad_changed (pads : Nat) (inp : BmInputs) (s : BmState) :
    BmStep s (board_mode_footpad_changed_event_handler pads inp s)
| emergency_fault (s : BmState) :
    BmStep s (board_mode_emergency_fault_event_handler s)
| idle_timer_expired (s : BmState) :
    s.idle_timer_armed = true →
    BmStep s (board_mode_idle_timer_handler { s with idle_timer_armed := false })

/-- The states the board-mode machine can reach from
`board_mode_init`. -/
def BmReachable (s : BmState) : Prop :=
  Relation.ReflTransGen BmStep board_mode_init s

/-! ## Concrete states used by witnesses and counterexamples -/

/-- A full event queue: seven pushes after init leave `tail = 7`,
`head = 0`, so `(tail + 1) % 8 = head`. -/
def eqFullState : EqState := { event_queue_init with event_queue_tail := 7 }

/-- A serial-decoder state with three unanswered polls and no buffered
bytes. -/
def vsThreeOutstanding : VsState :=
  { rx_buffer := [], comm_get_values := telemetry_zero, vesc_alive := true,
    outstanding := 3, callback_set := false, pushed := [] }

/-- After `EVENT_COMMAND_BOOT` in OFF: the machine is BOOTING. -/
def bmBooting : BmState :=
  board_mode_command_event_handler BmCommandEvent.command_boot board_mode_init

/-- After `EVENT_VESC_ALIVE` while BOOTING: IDLE/ACTIVE with the idle
timer armed. -/
def bmIdleActive : BmState := board_mode_vesc_alive_event_handler bmBooting

/-- After `EVENT_COMMAND_MODE_CONFIG(enable)` while IDLE: IDLE/CONFIG
with the idle timer cancelled. -/
def bmIdleConfig : BmState :=
  board_mode_command_event_handler (BmCommandEvent.command_mode_config true) bmIdleActive

/-- Readings while the board sits in CONFIG with the motor spun up: duty
cycle 95 (above the danger threshold), telemetry RPM 100, level board,
no feet on the pads. -/
def bmConfigInputs : BmInputs :=
  { duty_cycle := 95, rpm := 100, imu_roll := 0, footpads := 0 }

/-- Readings for the riding-priority witness: duty cycle 95 and RPM 3000
(danger latch and slow latch would both report SET). -/
def bmC7Inputs : BmInputs :=
  { duty_cycle := 95, rpm := 3000, imu_roll := 0, footpads := 3 }

/-- A slot after the tick handler's `counter--`: the same timer with the
freshly computed countdown value. -/
def tick_dec_to (t : CTimer) (c : Nat) : CTimer :=
  { t with counter := c }

/-- The pool after `set_timer(0, cb, rep)` on the fresh pool: slot 0 is
armed with counter 0 and id 1. -/
def tsZeroArmed (cb : Nat) (rep : Bool) : TimerState :=
  { next_timer_id := 1,
    timers := (List.replicate 8 (default : CTimer)).set 0 ⟨0, 0, some cb, rep, 1⟩ }

/-- That pool after one system tick: the counter has wrapped to
`2^32 - 1`. -/
def tsZeroTicked (cb : Nat) (rep : Bool) : TimerState :=
  { tsZeroArmed cb rep with
    timers := (tsZeroArmed cb rep).timers.set 0
      (tick_dec_to ((tsZeroArmed cb rep).timers.getD 0 default) (UINT32_MOD - 1)) }

/-- The timer invariant of the board-mode machine: whenever the idle
timer is armed, its stored handle is valid and the machine sits in one of
the four timed IDLE submodes. -/
def BmInv (s : BmState) : Prop :=
  s.idle_timer_armed = true →
    (s.idle_timer_id_valid = true ∧ s.board_mode = BoardModeT.idle ∧
      (s.board_submode = BoardSubmodeT.idle_active ∨
       s.board_submode = BoardSubmodeT.idle_default ∨
       s.board_submode = BoardSubmodeT.idle_dozing ∨
       s.board_submode = BoardSubmodeT.idle_shutting_down))

/-- The shape of a subscriber chain (for C1): starting at slot `idx`, the
table stores the callbacks `cbs` for event `e`, linked through strictly
increasing `next` indices below `n` (the chain ends with `next = 0`). -/
def ChainOK (subs : List SubscriberStruct) (e : Nat) (n : Nat) : Nat → List Nat → Prop
  | _, [] => False
  | idx, cb :: cbs =>
    match cbs with
    | [] => subs.getD idx default = ⟨e, some cb, 0⟩
    | _ :: _ =>
      ∃ j, subs.getD idx default = ⟨e, some cb, j⟩ ∧ idx < j ∧ j < n ∧
        ChainOK subs e n j cbs

/-- The subscriber-table invariant maintained by `subscribe_event` (for
C1): queue untouched, table sized, the fresh region blank, and each
valid event's slots forming exactly its subscription chain. -/
structure SubsInv (ops : List (Nat × Nat)) (s : EqState) : Prop where
  head : s.event_queue_head = 0
  tail : s.event_queue_tail = 0
  qlen : s.event_queue.length = EVENT_QUEUE_SIZE
  slen : s.subscribers.length = SUBSCRIBER_TABLE_SIZE
  nsi_lo : NUMBER_OF_EVENTS ≤ s.next_subscriber_index
  nsi_hi : s.next_subscriber_index ≤ NUMBER_OF_EVENTS + ops.length
  nsi_cap : s.next_subscriber_index ≤ SUBSCRIBER_TABLE_SIZE
  fresh : ∀ j, s.next_subscriber_index ≤ j → s.subscribers.getD j default = default
  chains : ∀ e, 0 < e → e < NUMBER_OF_EVENTS →
    (subscribed_callbacks ops e = [] → s.subscribers.getD e default = default) ∧
    (subscribed_callbacks ops e ≠ [] →
      ChainOK s.subscribers e s.next_subscriber_index e (subscribed_callbacks ops e))

/-- Concrete subscription list used by the C1 witness: two subscribers to
event 4, one to event 5. -/
def c1ops : List (Nat × Nat) := [(4, 100), (4, 101), (5, 102)]

/-- Concrete push list used by the C1 witness. -/
def c1ps : List (Nat × EventData) := [(4, 10), (5, 11), (4, 12)]

/-! # Theorems -/

/-! ## C9: hysteresis probe sequence -/

/-- C9: The claimed probe behaviour fails when the probe value `S - 1`
falls below the reset threshold: with `S = 1`, `R = 1/2` (which satisfy
the claim's only hypothesis `R < S`), the third reported state is RESET,
not SET. -/
theorem claim_C9_counterexample :
    (1 : Rat)/2 < 1 ∧
    (hysteresis_init hysUninit 1 (1/2)).1 = LcmStatus.success ∧
    hysteresis_run (hysteresis_init hysUninit 1 (1/2)).2 (hysteresis_spec_sequence 1 (1/2)) ≠
      [HysState.reset, HysState.set, HysState.set, HysState.set, HysState.reset] := by
  refine ⟨by norm_num, by norm_num [hysteresis_init], ?_⟩
  norm_num [hysteresis_init, hysteresis_run, apply_hysteresis, hysteresis_spec_sequence]
  decide

/-- C9 (amended): for a latch freshly initialized with set threshold `S`
and reset threshold `R` where `R < S` **and the probe `S - 1` does not
fall below `R`** (`R ≤ S - 1`), the probe sequence `S-1, S, S-1, R+0.1,
R-0.1` reports `RESET, SET, SET, SET, RESET`. -/
theorem claim_C9_amended (S R : Rat) (h1 : R < S) (h2 : R ≤ S - 1) :
    (hysteresis_init hysUninit S R).1 = LcmStatus.success ∧
    hysteresis_run (hysteresis_init hysUninit S R).2 (hysteresis_spec_sequence S R) =
      [HysState.reset, HysState.set, HysState.set, HysState.set, HysState.reset] := by
  have hn : ¬ S < R := not_lt.mpr h1.le
  have h3 : ¬ S ≤ S - 1 := by intro h; linarith
  have h4 : ¬ S - 1 < R := not_lt.mpr h2
  have h5 : ¬ R + 1/10 < R := by intro h; linarith
  have h6 : R - 1/10 < R := by linarith
  have e0 : (hysteresis_init hysUninit S R).2 = ⟨HysState.reset, S, R⟩ := by
    unfold hysteresis_init
    rw [if_neg hn]
  have eA : apply_hysteresis ⟨HysState.reset, S, R⟩ (S - 1) =
      (HysState.reset, ⟨HysState.reset, S, R⟩) := by
    simp [apply_hysteresis, h3]
  have eB : apply_hysteresis ⟨HysState.reset, S, R⟩ S =
      (HysState.set, ⟨HysState.set, S, R⟩) := by
    simp [apply_hysteresis]
  have eC : apply_hysteresis ⟨HysState.set, S, R⟩ (S - 1) =
      (HysState.set, ⟨HysState.set, S, R⟩) := by
    simp [apply_hysteresis, h4]
  have eD : apply_hysteresis ⟨HysState.set, S, R⟩ (R + 1/10) =
      (HysState.set, ⟨HysState.set, S, R⟩) := by
    simp [apply_hysteresis, h5]
  have eE : apply_hysteresis ⟨HysState.set, S, R⟩ (R - 1/10) =
      (HysState.reset, ⟨HysState.reset, S, R⟩) := by
    simp [apply_hysteresis, h6]
  constructor
  · unfold hysteresis_init
    rw [if_neg hn]
  · rw [e0]
    simp only [hysteresis_spec_sequence, hysteresis_run, eA, eB, eC, eD, eE]

/-- C9 witness: the amended claim at `S = 2`, `R = 1/2`. -/
theorem claim_C9_witness :
    (1 : Rat)/2 < 2 ∧ (1 : Rat)/2 ≤ 2 - 1 ∧
    hysteresis_run (hysteresis_init hysUninit 2 (1/2)).2 (hysteresis_spec_sequence 2 (1/2)) =
      [HysState.reset, HysState.set, HysState.set, HysState.set, HysState.reset] :=
  ⟨by norm_num, by norm_num, (claim_C9_amended 2 (1/2) (by norm_num) (by norm_num)).2⟩

/-! ## C2: failed pushes and queue integrity -/

/-- C2: the claim fails at the concrete input `event_queue_push(EVENT_NULL,
NULL)` on the freshly initialized (empty, room available) queue: the push
reports `LCM_ERROR`, yet the depth reported by
`event_queue_get_num_events` changes from 0 to 1, because
`get_free_index` advances the tail before the kind checks run. -/
theorem claim_C2_counterexample :
    (event_queue_push EVENT_NULL none event_queue_init).1 = LcmStatus.error ∧
    event_queue_get_num_events event_queue_init = 0 ∧
    event_queue_get_num_events (event_queue_push EVENT_NULL none event_queue_init).2 = 1 := by
  decide

/-- C2 (amended): when `event_queue_push` fails because the queue is full,
the state is left exactly unchanged; but when it fails because the kind
is `EVENT_NULL` or out of range while the queue has room, the head and
the stored events are unchanged while the tail still advances one slot
(so the reported depth grows by one), because `get_free_index` reserves
the slot before the kind is validated. -/
theorem claim_C2_amended (e : Nat) (d : Option EventData) (s : EqState) :
    ((s.event_queue_tail + 1) % EVENT_QUEUE_SIZE = s.event_queue_head →
      event_queue_push e d s = (LcmStatus.error, s)) ∧
    ((s.event_queue_tail + 1) % EVENT_QUEUE_SIZE ≠ s.event_queue_head →
      ¬(e < NUMBER_OF_EVENTS ∧ e ≠ EVENT_NULL) →
      event_queue_push e d s =
        (LcmStatus.error,
          { s with event_queue_tail := (s.event_queue_tail + 1) % EVENT_QUEUE_SIZE })) := by
  constructor
  · intro hfull
    simp [event_queue_push, get_free_index, hfull]
  · intro hroom hbad
    simp [event_queue_push, get_free_index, hroom, hbad]

/-- C2 witness: the amended claim at concrete inputs — a full queue with a
valid kind, and the fresh queue with the null kind. -/
theorem claim_C2_witness :
    event_queue_push 1 none eqFullState = (LcmStatus.error, eqFullState) ∧
    event_queue_push 0 none event_queue_init =
      (LcmStatus.error, { event_queue_init with event_queue_tail := 1 }) := by
  constructor
  · exact (claim_C2_amended 1 none eqFullState).1 (by decide)
  · have h := (claim_C2_amended 0 none event_queue_init).2 (by decide) (by decide)
    simpa using h

/-! ## Helper lemmas: serial decoder state -/

/-- Per-command processing never touches the outstanding-request
counter. -/
theorem process_comm_get_values_outstanding (payload : List Nat) (pl : Nat) (s : VsState) :
    (process_comm_get_values_setup_selective payload pl s).outstanding = s.outstanding := by
  unfold process_comm_get_values_setup_selective
  split_ifs <;> try rfl
  dsimp only
  split_ifs <;> rfl

/-- Packet dispatch never touches the outstanding-request counter. -/
theorem process_packet_outstanding (payload : List Nat) (pl : Nat) (s : VsState) :
    (process_packet payload pl s).outstanding = s.outstanding := by
  unfold process_packet
  split_ifs <;> simp [process_comm_get_values_outstanding]

/-- The RX scan loop never touches the outstanding-request counter: every
early return forwards the entry state and frame processing goes through
`process_packet`. -/
theorem rx_scan_outstanding (crc16 : List Nat → Nat) :
    ∀ (fuel byte : Nat) (s : VsState), (rx_scan crc16 byte s fuel).outstanding = s.outstanding := by
  intro fuel
  induction fuel with
  | zero => intro byte s; rfl
  | succ n ih =>
    intro byte s
    by_cases hb : byte = START_BYTE
    · simp [rx_scan, hb]
    · rcases hbuf : s.rx_buffer with _ | ⟨b, rest⟩
      · simp [rx_scan, hb, ring_buffer_pop, hbuf]
      · by_cases hbs : b = START_BYTE
        · rcases hr1 : rest with _ | ⟨pl, rest1⟩
          · simp [rx_scan, hb, ring_buffer_pop, hbuf, hbs, hr1]
          · by_cases hpl : MAX_PACKET_LENGTH < pl
            · simp [rx_scan, hb, ring_buffer_pop, hbuf, hbs, hr1, hpl]
            · rcases hpn : ring_buffer_popN pl rest1 with _ | ⟨payload, rest2⟩
              · simp [rx_scan, hb, ring_buffer_pop, hbuf, hbs, hr1, hpl, hpn]
              · rcases hr2 : rest2 with _ | ⟨c1, rest3⟩
                · simp [rx_scan, hb, ring_buffer_pop, hbuf, hbs, hr1, hpl, hpn, hr2]
                · rcases hr3 : rest3 with _ | ⟨c2, rest4⟩
                  · simp [rx_scan, hb, ring_buffer_pop, hbuf, hbs, hr1, hpl, hpn, hr2, hr3]
                  · rcases hr4 : rest4 with _ | ⟨endb, rest5⟩
                    · simp [rx_scan, hb, ring_buffer_pop, hbuf, hbs, hr1, hpl, hpn, hr2,
                        hr3, hr4]
                    · have hrec : ∀ t : VsState, (rx_scan crc16 endb t n).outstanding =
                          t.outstanding := fun t => ih endb t
                      simp only [rx_scan, hb, ring_buffer_pop, hbuf, hbs, hr1, hpl, hpn,
                        hr2, hr3, hr4, if_false, ite_false, if_true, ite_true, hrec,
                        reduceIte]
                      split_ifs <;> simp [process_packet_outstanding]
        · simp [rx_scan, hb, ring_buffer_pop, hbuf, hbs, ih]

/-! ## C5: outstanding-request counter -/

/-- C5: the claim fails at a concrete input: with three outstanding
requests and an empty RX buffer (no start byte, hence no successfully
parsed frame — no event is even pushed), the RX handler does not leave
the counter unchanged at 3; it clears it to 0, because
`clear_outstanding_packets` runs unconditionally at handler entry. -/
theorem claim_C5_counterexample :
    vsThreeOutstanding.outstanding = 3 ∧
    (vesc_serial_rx_event_handler (fun _ => 0) vsThreeOutstanding).pushed = [] ∧
    (vesc_serial_rx_event_handler (fun _ => 0) vsThreeOutstanding).outstanding = 0 := by
  exact ⟨rfl, rfl, rfl⟩

/-- C5 (amended): the outstanding-request counter is incremented once per
poll-timer transmission only while the VESC is marked alive (cleared to
zero, with a communication-timeout fault, when the bound is exceeded;
untouched when not alive), and it is reset to zero by **every**
invocation of the serial-RX handler — before any parsing — regardless of
whether the buffered bytes yield a successfully parsed frame. -/
theorem claim_C5_amended (crc16 : List Nat → Nat) (s : VsState) :
    (vesc_serial_rx_event_handler crc16 s).outstanding = 0 ∧
    (vesc_serial_tx_timer_callback s).outstanding =
      (if s.vesc_alive then
        (if MAX_OUTSTANDING_PACKETS ≤ s.outstanding then 0
         else (s.outstanding + 1) % UINT8_MOD)
       else s.outstanding) := by
  constructor
  · unfold vesc_serial_rx_event_handler
    rw [rx_scan_outstanding]
    rfl
  · unfold vesc_serial_tx_timer_callback clear_outstanding_packets
    dsimp only
    split_ifs <;> rfl

/-! ## C6: telemetry frame validation -/

/-- C6: any COMM_GET_VALUES_SETUP_SELECTIVE frame that reaches
per-command decoding with a wrong declared length, a wrong embedded
field-mask, or any out-of-range decoded field (duty cycle outside
[-100,100], RPM outside the plausible bound, battery outside [0,100])
aborts with exactly one emergency-fault push: no telemetry-changed event
is published and the retained last-known-good telemetry is unchanged. -/
theorem claim_C6_reject_abort (payload : List Nat) (packet_length : Nat) (s : VsState)
    (hbad : packet_length ≠ COMM_GET_VALUES_SETUP_SELECTIVE_RESPONSE_LENGTH ∨
      decoded_mask payload ≠ COMM_GET_VALUES_SETUP_SELECTIVE_MASK ∨
      decoded_duty payload < -100 ∨ 100 < decoded_duty payload ∨
      decoded_rpm payload < -25000 ∨ 25000 < decoded_rpm payload ∨
      decoded_battery payload < 0 ∨ 100 < decoded_battery payload) :
    (process_comm_get_values_setup_selective payload packet_length s).comm_get_values =
      s.comm_get_values ∧
    (process_comm_get_values_setup_selective payload packet_length s).vesc_alive =
      s.vesc_alive ∧
    ∃ c, (process_comm_get_values_setup_selective payload packet_length s).pushed =
      s.pushed ++ [VescEvent.emergencyFault c] := by
  by_cases h1 : packet_length ≠ COMM_GET_VALUES_SETUP_SELECTIVE_RESPONSE_LENGTH
  · unfold process_comm_get_values_setup_selective
    rw [if_pos h1]
    exact ⟨rfl, rfl, EMERGENCY_FAULT_INVALID_LENGTH, rfl⟩
  · by_cases h2 : decoded_mask payload ≠ COMM_GET_VALUES_SETUP_SELECTIVE_MASK
    · unfold process_comm_get_values_setup_selective
      rw [if_neg h1, if_pos h2]
      exact ⟨rfl, rfl, EMERGENCY_FAULT_OUT_OF_BOUNDS, rfl⟩
    · by_cases h3 : decoded_duty payload < -100 ∨ 100 < decoded_duty payload
      · unfold process_comm_get_values_setup_selective
        rw [if_neg h1, if_neg h2, if_pos h3]
        exact ⟨rfl, rfl, EMERGENCY_FAULT_OUT_OF_BOUNDS, rfl⟩
      · by_cases h4 : decoded_rpm payload < -25000 ∨ 25000 < decoded_rpm payload
        · unfold process_comm_get_values_setup_selective
          rw [if_neg h1, if_neg h2, if_neg h3, if_pos h4]
          exact ⟨rfl, rfl, EMERGENCY_FAULT_OUT_OF_BOUNDS, rfl⟩
        · by_cases h5 : decoded_battery payload < 0 ∨ 100 < decoded_battery payload
          · unfold process_comm_get_values_setup_selective
            rw [if_neg h1, if_neg h2, if_neg h3, if_neg h4, if_pos h5]
            exact ⟨rfl, rfl, EMERGENCY_FAULT_OUT_OF_BOUNDS, rfl⟩
          · rcases hbad with h | h | h | h | h | h | h | h
            · exact absurd h h1
            · exact absurd h h2
            · exact absurd (Or.inl h) h3
            · exact absurd (Or.inr h) h3
            · exact absurd (Or.inl h) h4
            · exact absurd (Or.inr h) h4
            · exact absurd (Or.inl h) h5
            · exact absurd (Or.inr h) h5

/-- C6 witness: a frame whose declared length is 10 instead of 16. -/
theorem claim_C6_witness :
    (process_comm_get_values_setup_selective [51] 10 vsThreeOutstanding).comm_get_values =
      vsThreeOutstanding.comm_get_values ∧
    ∃ c, (process_comm_get_values_setup_selective [51] 10 vsThreeOutstanding).pushed =
      vsThreeOutstanding.pushed ++ [VescEvent.emergencyFault c] := by
  have h := claim_C6_reject_abort [51] 10 vsThreeOutstanding (Or.inl (by decide))
  exact ⟨h.1, h.2.2⟩

/-! ## Helper lemmas: board mode -/

/-- The timer-management switch of `set_board_mode` never changes the
mode/submode pair. -/
theorem board_mode_manage_timers_pair (s : BmState) :
    (board_mode_manage_timers s).board_mode = s.board_mode ∧
    (board_mode_manage_timers s).board_submode = s.board_submode := by
  unfold board_mode_manage_timers
  split <;> (try split) <;> (try split_ifs) <;> exact ⟨rfl, rfl⟩

/-- `set_board_mode` installs the requested pair whenever it differs from
the current one. -/
theorem set_board_mode_changed (m : BoardModeT) (sm : BoardSubmodeT) (s : BmState)
    (h : ¬(s.board_mode = m ∧ s.board_submode = sm)) :
    (set_board_mode m sm s).board_mode = m ∧ (set_board_mode m sm s).board_submode = sm := by
  unfold set_board_mode
  rw [if_pos (by tauto)]
  have h2 := board_mode_manage_timers_pair
    { s with board_mode := m, board_submode := sm }
  simpa using h2

/-- `set_board_mode` is the identity when the pair is unchanged. -/
theorem set_board_mode_same (m : BoardModeT) (sm : BoardSubmodeT) (s : BmState)
    (h1 : s.board_mode = m) (h2 : s.board_submode = sm) :
    set_board_mode m sm s = s := by
  unfold set_board_mode
  rw [if_neg (by simp [h1, h2])]

/-! ## C7: riding-submode priority -/

/-- C7: whenever `update_riding_submode` actually consults the latches
(the roll guard does not abort) and the duty-cycle danger latch reports
SET, the result is RIDING/DANGER — regardless of what the warning, slow
and stopped latches would report for the same inputs.  The consistency
hypothesis (submode DANGER only occurs in mode RIDING) holds in every
reachable state, since only `set_board_mode(RIDING, DANGER)` installs
that submode. -/
theorem claim_C7_danger_priority (inp : BmInputs) (s : BmState)
    (hroll : ¬(45 < inp.imu_roll ∨ inp.imu_roll < -45))
    (hdanger : (apply_hysteresis s.danger_hysteresis inp.duty_cycle).1 = HysState.set)
    (hcons : s.board_submode = BoardSubmodeT.riding_danger → s.board_mode = BoardModeT.riding) :
    (update_riding_submode inp s).board_mode = BoardModeT.riding ∧
    (update_riding_submode inp s).board_submode = BoardSubmodeT.riding_danger := by
  unfold update_riding_submode
  rw [if_neg hroll]
  by_cases hsub : s.board_submode = BoardSubmodeT.riding_danger
  · simp [hdanger, hsub, hcons hsub]
  · simp only [hdanger, if_true, ne_eq, hsub, not_false_iff, if_pos, reduceIte]
    exact set_board_mode_changed _ _ _ (by simp [hsub])

/-- C7 witness: danger and slow latches would both trigger (duty 95,
RPM 3000) starting from the freshly initialized machine; the result is
RIDING/DANGER. -/
theorem claim_C7_witness :
    ¬((45:Rat) < bmC7Inputs.imu_roll ∨ bmC7Inputs.imu_roll < -45) ∧
    (apply_hysteresis board_mode_init.danger_hysteresis bmC7Inputs.duty_cycle).1 =
      HysState.set ∧
    (update_riding_submode bmC7Inputs board_mode_init).board_mode = BoardModeT.riding ∧
    (update_riding_submode bmC7Inputs board_mode_init).board_submode =
      BoardSubmodeT.riding_danger := by
  have hroll : ¬((45:Rat) < bmC7Inputs.imu_roll ∨ bmC7Inputs.imu_roll < -45) := by
    norm_num [bmC7Inputs]
  have hdanger : (apply_hysteresis board_mode_init.danger_hysteresis bmC7Inputs.duty_cycle).1 =
      HysState.set := rfl
  have hcons : board_mode_init.board_submode = BoardSubmodeT.riding_danger →
      board_mode_init.board_mode = BoardModeT.riding := fun h => absurd h (by decide)
  have h := claim_C7_danger_priority bmC7Inputs board_mode_init hroll hdanger hcons
  exact ⟨hroll, hdanger, h.1, h.2⟩

/-! ## C4: RPM and footpad events in IDLE/CONFIG -/

/-- C4: the claim fails at a concrete reachable state.  From init, BOOT,
VESC-alive and CONFIG-enable reach IDLE/CONFIG; an RPM-changed event
with nonzero RPM (100) while the telemetry reports duty 95 then drives
the machine to RIDING/DANGER — the RPM handler has no CONFIG guard. -/
theorem claim_C4_counterexample :
    BmReachable bmIdleConfig ∧
    bmIdleConfig.board_mode = BoardModeT.idle ∧
    bmIdleConfig.board_submode = BoardSubmodeT.idle_config ∧
    (board_mode_rpm_changed_event_handler 100 bmConfigInputs bmIdleConfig).board_mode =
      BoardModeT.riding ∧
    (board_mode_rpm_changed_event_handler 100 bmConfigInputs bmIdleConfig).board_submode =
      BoardSubmodeT.riding_danger := by
  refine ⟨?_, rfl, rfl, rfl, rfl⟩
  exact Relation.ReflTransGen.head (BmStep.command BmCommandEvent.command_boot board_mode_init)
    (Relation.ReflTransGen.head (BmStep.vesc_alive bmBooting)
      (Relation.ReflTransGen.single
        (BmStep.command (BmCommandEvent.command_mode_config true) bmIdleActive)))

/-- C4 (amended): while in IDLE with submode CONFIG, a footpad-changed
event leaves the state entirely unchanged (the footpad handler is guarded
by CONFIG), but an RPM-changed event with nonzero RPM is **not** guarded:
it invokes the riding-submode recomputation exactly as in the other IDLE
submodes, and may therefore promote the machine out of CONFIG. -/
theorem claim_C4_amended (s : BmState) (inp : BmInputs) (r : Int) (pads : Nat)
    (hm : s.board_mode = BoardModeT.idle) (hsm : s.board_submode = BoardSubmodeT.idle_config) :
    board_mode_footpad_changed_event_handler pads inp s = s ∧
    (0 < r.natAbs →
      board_mode_rpm_changed_event_handler r inp s = update_riding_submode inp s) := by
  constructor
  · unfold board_mode_footpad_changed_event_handler
    rw [hm]
    simp [hsm]
  · intro hr
    unfold board_mode_rpm_changed_event_handler
    rw [hm]
    simp [hr]

/-- C4 witness: the amended claim at the reachable IDLE/CONFIG state with
footpads pressed (3) and RPM 100. -/
theorem claim_C4_witness :
    board_mode_footpad_changed_event_handler 3 bmConfigInputs bmIdleConfig = bmIdleConfig ∧
    board_mode_rpm_changed_event_handler 100 bmConfigInputs bmIdleConfig =
      update_riding_submode bmConfigInputs bmIdleConfig := by
  have h := claim_C4_amended bmIdleConfig bmConfigInputs 100 3 rfl rfl
  exact ⟨h.1, h.2 (by decide)⟩

/-! ## Helper lemmas: board-mode reachability invariant (for C3) -/

/-- Entering RIDING preserves the invariant (a live idle timer is
cancelled). -/
theorem BmInv_sbm_riding (sm : BoardSubmodeT) (s : BmState) (hinv : BmInv s) :
    BmInv (set_board_mode BoardModeT.riding sm s) := by
  by_cases hch : s.board_mode = BoardModeT.riding ∧ s.board_submode = sm
  · rw [set_board_mode_same _ _ _ hch.1 hch.2]
    exact hinv
  · unfold set_board_mode
    rw [if_pos (by tauto)]
    unfold board_mode_manage_timers
    dsimp only
    split_ifs with hva
    · intro h
      simp at h
    · intro h
      rcases hinv h with ⟨hv, -, -⟩
      exact absurd ⟨hv, h⟩ hva

/-- Entering FAULT preserves the invariant. -/
theorem BmInv_sbm_fault (sm : BoardSubmodeT) (s : BmState) (hinv : BmInv s) :
    BmInv (set_board_mode BoardModeT.fault sm s) := by
  by_cases hch : s.board_mode = BoardModeT.fault ∧ s.board_submode = sm
  · rw [set_board_mode_same _ _ _ hch.1 hch.2]
    exact hinv
  · unfold set_board_mode
    rw [if_pos (by tauto)]
    unfold board_mode_manage_timers
    dsimp only
    split_ifs with hva
    · intro h
      simp at h
    · intro h
      rcases hinv h with ⟨hv, -, -⟩
      exact absurd ⟨hv, h⟩ hva

/-- Entering a timed IDLE submode arms the timer and establishes the
invariant outright. -/
theorem BmInv_sbm_idle_timed (sm : BoardSubmodeT) (s : BmState)
    (h4 : sm = BoardSubmodeT.idle_active ∨ sm = BoardSubmodeT.idle_default ∨
      sm = BoardSubmodeT.idle_dozing ∨ sm = BoardSubmodeT.idle_shutting_down)
    (hinv : BmInv s) :
    BmInv (set_board_mode BoardModeT.idle sm s) := by
  by_cases hch : s.board_mode = BoardModeT.idle ∧ s.board_submode = sm
  · rw [set_board_mode_same _ _ _ hch.1 hch.2]
    exact hinv
  · unfold set_board_mode
    rw [if_pos (by tauto)]
    unfold board_mode_manage_timers
    rcases h4 with rfl | rfl | rfl | rfl
    · exact fun _ => ⟨rfl, rfl, Or.inl rfl⟩
    · exact fun _ => ⟨rfl, rfl, Or.inr (Or.inl rfl)⟩
    · exact fun _ => ⟨rfl, rfl, Or.inr (Or.inr (Or.inl rfl))⟩
    · exact fun _ => ⟨rfl, rfl, Or.inr (Or.inr (Or.inr rfl))⟩

/-- Entering IDLE/CONFIG preserves the invariant (a live idle timer is
cancelled). -/
theorem BmInv_sbm_idle_config (s : BmState) (hinv : BmInv s) :
    BmInv (set_board_mode BoardModeT.idle BoardSubmodeT.idle_config s) := by
  by_cases hch : s.board_mode = BoardModeT.idle ∧ s.board_submode = BoardSubmodeT.idle_config
  · rw [set_board_mode_same _ _ _ hch.1 hch.2]
    exact hinv
  · unfold set_board_mode
    rw [if_pos (by tauto)]
    unfold board_mode_manage_timers
    dsimp only
    split_ifs with hva
    · intro h
      simp at h
    · intro h
      rcases hinv h with ⟨hv, -, -⟩
      exact absurd ⟨hv, h⟩ hva

/-- Entering any mode outside IDLE/RIDING/FAULT leaves the timer alone;
with the timer disarmed the invariant is trivially preserved. -/
theorem BmInv_sbm_other (m : BoardModeT) (sm : BoardSubmodeT) (s : BmState)
    (hm : m ≠ BoardModeT.idle ∧ m ≠ BoardModeT.riding ∧ m ≠ BoardModeT.fault)
    (ha : s.idle_timer_armed = false) :
    BmInv (set_board_mode m sm s) := by
  by_cases hch : s.board_mode = m ∧ s.board_submode = sm
  · rw [set_board_mode_same _ _ _ hch.1 hch.2]
    intro h
    rw [ha] at h
    cases h
  · unfold set_board_mode
    rw [if_pos (by tauto)]
    unfold board_mode_manage_timers
    cases m with
    | idle => exact absurd rfl hm.1
    | riding => exact absurd rfl hm.2.1
    | fault => exact absurd rfl hm.2.2
    | unknown => intro h; rw [ha] at h; cases h
    | off => intro h; rw [ha] at h; cases h
    | booting => intro h; rw [ha] at h; cases h
    | charging => intro h; rw [ha] at h; cases h

/-- The riding-submode recomputation preserves the invariant: it either
leaves the timer fields untouched or enters RIDING. -/
theorem BmInv_update_riding (inp : BmInputs) (s : BmState) (hinv : BmInv s) :
    BmInv (update_riding_submode inp s) := by
  unfold update_riding_submode
  dsimp only
  split_ifs <;> first
    | exact hinv
    | exact BmInv_sbm_riding _ _ hinv

/-- The command handler preserves the invariant. -/
theorem BmInv_command_handler (ev : BmCommandEvent) (s : BmState) (hinv : BmInv s) :
    BmInv (board_mode_command_event_handler ev s) := by
  cases ev with
  | command_boot =>
    unfold board_mode_command_event_handler
    dsimp only
    split_ifs with hoff
    · apply BmInv_sbm_other _ _ _ (by refine ⟨?_, ?_, ?_⟩ <;> decide)
      cases harm : s.idle_timer_armed
      · rfl
      · have hmode := (hinv harm).2.1
        rw [hoff] at hmode
        cases hmode
    · exact hinv
  | command_shutdown =>
    exact BmInv_sbm_idle_timed _ _ (Or.inr (Or.inr (Or.inr rfl))) hinv
  | command_mode_config enable =>
    unfold board_mode_command_event_handler
    dsimp only
    split_ifs
    · exact BmInv_sbm_idle_config _ hinv
    · exact hinv
    · exact BmInv_sbm_idle_timed _ _ (Or.inl rfl) hinv
  | button_up =>
    unfold board_mode_command_event_handler
    dsimp only
    split_ifs
    · exact BmInv_sbm_idle_timed _ _ (Or.inl rfl) hinv
    · exact hinv
  | imu_roll_changed roll =>
    unfold board_mode_command_event_handler
    dsimp only
    split_ifs
    · exact BmInv_sbm_idle_timed _ _ (Or.inr (Or.inr (Or.inl rfl))) hinv
    · exact BmInv_sbm_idle_timed _ _ (Or.inl rfl) hinv
    · exact hinv

/-- The VESC-alive handler preserves the invariant. -/
theorem BmInv_vesc_alive_handler (s : BmState) (hinv : BmInv s) :
    BmInv (board_mode_vesc_alive_event_handler s) := by
  unfold board_mode_vesc_alive_event_handler
  split_ifs
  · exact BmInv_sbm_idle_timed _ _ (Or.inl rfl) hinv
  · exact hinv

/-- The RPM-changed handler preserves the invariant. -/
theorem BmInv_rpm_handler (r : Int) (inp : BmInputs) (s : BmState) (hinv : BmInv s) :
    BmInv (board_mode_rpm_changed_event_handler r inp s) := by
  unfold board_mode_rpm_changed_event_handler
  split <;> (try split_ifs) <;> first
    | exact hinv
    | exact BmInv_update_riding _ _ hinv
    | exact BmInv_sbm_idle_timed _ _ (Or.inl rfl) hinv

/-- The duty-cycle-changed handler preserves the invariant. -/
theorem BmInv_duty_handler (inp : BmInputs) (s : BmState) (hinv : BmInv s) :
    BmInv (board_mode_duty_cycle_changed_event_handler inp s) := by
  unfold board_mode_duty_cycle_changed_event_handler
  split_ifs
  · exact BmInv_update_riding _ _ hinv
  · exact hinv

/-- The footpad-changed handler preserves the invariant. -/
theorem BmInv_footpad_handler (pads : Nat) (inp : BmInputs) (s : BmState) (hinv : BmInv s) :
    BmInv (board_mode_footpad_changed_event_handler pads inp s) := by
  unfold board_mode_footpad_changed_event_handler
  split <;> (try split_ifs) <;> first
    | exact hinv
    | exact BmInv_update_riding _ _ hinv
    | exact BmInv_sbm_idle_timed _ _ (Or.inl rfl) hinv

/-- The idle-timer expiry callback, entered with the one-shot slot
already released, preserves the invariant. -/
theorem BmInv_idle_timer_handler (s : BmState) (ha : s.idle_timer_armed = false) :
    BmInv (board_mode_idle_timer_handler s) := by
  have hvac : BmInv s := by
    intro h
    rw [ha] at h
    cases h
  unfold board_mode_idle_timer_handler
  split_ifs with hidle
  · split
    · exact BmInv_sbm_idle_timed _ _ (Or.inr (Or.inl rfl)) hvac
    · exact BmInv_sbm_idle_timed _ _ (Or.inr (Or.inr (Or.inl rfl))) hvac
    · exact BmInv_sbm_idle_timed _ _ (Or.inr (Or.inr (Or.inr rfl))) hvac
    · exact BmInv_sbm_other _ _ _ (by refine ⟨?_, ?_, ?_⟩ <;> decide) ha
    · exact hvac
  · exact hvac

/-- Every reachable state of the board-mode machine satisfies the timer
invariant. -/
theorem BmInv_step (a b : BmState) (hstep : BmStep a b) (ha : BmInv a) : BmInv b := by
  revert ha
  cases hstep with
  | command ev s => exact fun ha => BmInv_command_handler ev a ha
  | vesc_alive s => exact fun ha => BmInv_vesc_alive_handler a ha
  | rpm_changed r inp s => exact fun ha => BmInv_rpm_handler r inp a ha
  | duty_cycle_changed inp s => exact fun ha => BmInv_duty_handler inp a ha
  | footpad_changed pads inp s => exact fun ha => BmInv_footpad_handler pads inp a ha
  | emergency_fault s => exact fun ha => BmInv_sbm_fault _ a ha
  | idle_timer_expired s harm => exact fun _ => BmInv_idle_timer_handler _ rfl

/-- Every reachable state of the board-mode machine satisfies the timer
invariant. -/
theorem BmInv_reachable (s : BmState) (h : BmReachable s) : BmInv s := by
  induction h with
  | refl =>
    intro h
    simp [board_mode_init] at h
  | tail hab hbc ih => exact BmInv_step _ _ hbc ih

/-! ## C3: emergency fault forces FAULT/UNDEFINED -/

/-- C3: from every reachable state, processing `EVENT_EMERGENCY_FAULT`
leaves the machine in FAULT with submode UNDEFINED and the idle timer
disarmed (a pending idle timer, if any, is cancelled). -/
theorem claim_C3_emergency_fault_forces_fault (s : BmState) (h : BmReachable s) :
    (board_mode_emergency_fault_event_handler s).board_mode = BoardModeT.fault ∧
    (board_mode_emergency_fault_event_handler s).board_submode = BoardSubmodeT.undefined ∧
    (board_mode_emergency_fault_event_handler s).idle_timer_armed = false := by
  have hinv := BmInv_reachable s h
  unfold board_mode_emergency_fault_event_handler
  by_cases hch : s.board_mode = BoardModeT.fault ∧ s.board_submode = BoardSubmodeT.undefined
  · rw [set_board_mode_same _ _ _ hch.1 hch.2]
    refine ⟨hch.1, hch.2, ?_⟩
    cases harm : s.idle_timer_armed
    · rfl
    · have hmode := (hinv harm).2.1
      rw [hch.1] at hmode
      cases hmode
  · unfold set_board_mode
    rw [if_pos (by tauto)]
    unfold board_mode_manage_timers
    dsimp only
    split_ifs with hva
    · exact ⟨rfl, rfl, rfl⟩
    · refine ⟨rfl, rfl, ?_⟩
      cases harm : s.idle_timer_armed
      · rfl
      · rcases hinv harm with ⟨hv, -, -⟩
        exact absurd ⟨hv, harm⟩ hva

/-- C3 witness: the claim at the (reachable) initial state. -/
theorem claim_C3_witness :
    (board_mode_emergency_fault_event_handler board_mode_init).board_mode = BoardModeT.fault ∧
    (board_mode_emergency_fault_event_handler board_mode_init).board_submode =
      BoardSubmodeT.undefined ∧
    (board_mode_emergency_fault_event_handler board_mode_init).idle_timer_armed = false :=
  claim_C3_emergency_fault_forces_fault board_mode_init Relation.ReflTransGen.refl

/-! ## Helper lemmas: timer pool -/

/-- Replacing a slot with one whose predicate value agrees does not change
the `countP` of the pool. -/
theorem countP_set_preserve {α : Type} (p : α → Bool) :
    ∀ (l : List α) (i : Nat) (x : α) (hi : i < l.length), p x = p (l[i]) →
      (l.set i x).countP p = l.countP p := by
  intro l
  induction l with
  | nil => intro i x hi; simp at hi
  | cons a tl ih =>
    intro i x hi hp
    cases i with
    | zero =>
      simp only [List.getElem_cons_zero] at hp
      simp [List.countP_cons, hp]
    | succ n =>
      simp only [List.getElem_cons_succ] at hp
      have hn : n < tl.length := by simpa using hi
      simp [List.countP_cons, ih n x hn hp]

/-- If exactly the slots other than `i` miss an id and slot `i` carries
it, `find_timer_by_id` resolves to slot `i`. -/
theorem find_timer_index_unique (ts : TimerState) (i : Nat) (hid : Nat)
    (hi : i < ts.timers.length)
    (hx : (ts.timers[i]).id = hid)
    (hothers : ∀ j (hj : j < ts.timers.length), j ≠ i → (ts.timers[j]).id ≠ hid) :
    find_timer_index_by_id ts hid = some i := by
  unfold find_timer_index_by_id
  rw [List.findIdx?_eq_some_iff_findIdx_eq]
  refine ⟨hi, ?_⟩
  have hex : ∃ x ∈ ts.timers, (fun t => decide (t.id = hid)) x = true :=
    ⟨ts.timers[i], List.getElem_mem hi, by simp [hx]⟩
  have hlt := List.findIdx_lt_length_of_exists hex
  rcases Nat.lt_trichotomy (ts.timers.findIdx (fun t => decide (t.id = hid))) i with h | h | h
  · exfalso
    have hq := List.findIdx_getElem (w := hlt)
    have := hothers _ hlt (Nat.ne_of_lt h)
    simp [this] at hq
  · exact h
  · exfalso
    have hq := List.not_of_lt_findIdx h
    simp [hx] at hq

/-- The id-search loop of `find_next_timer_id` returns an id no pool slot
holds, provided some candidate within the fuel is free. -/
theorem find_next_timer_id_loop_free (timers : List CTimer) :
    ∀ (fuel cand : Nat), cand < UINT8_MOD →
      (∃ j, j < fuel ∧ ∀ t ∈ timers, t.id ≠ (cand + j) % UINT8_MOD) →
      ∀ t ∈ timers, t.id ≠ find_next_timer_id_loop timers cand fuel := by
  intro fuel
  induction fuel with
  | zero =>
    rintro cand - ⟨j, hj, -⟩
    omega
  | succ n ih =>
    rintro cand hcand ⟨j, hj, hfreej⟩ t ht
    by_cases hany : timers.any (fun t => t.id = cand) = true
    · have hj0 : j ≠ 0 := by
        rintro rfl
        rcases List.any_eq_true.mp hany with ⟨x, hx, hxid⟩
        have := hfreej x hx
        simp [Nat.mod_eq_of_lt hcand] at this
        simp [this] at hxid
      have hrw : ∀ u ∈ timers, u.id ≠ ((cand + 1) % UINT8_MOD + (j - 1)) % UINT8_MOD := by
        intro u hu
        have : ((cand + 1) % UINT8_MOD + (j - 1)) % UINT8_MOD = (cand + j) % UINT8_MOD := by
          rw [Nat.mod_add_mod]
          congr 1
          omega
        rw [this]
        exact hfreej u hu
      have hres : find_next_timer_id_loop timers cand (n+1) =
          find_next_timer_id_loop timers ((cand + 1) % UINT8_MOD) n := by
        simp [find_next_timer_id_loop, hany]
      rw [hres]
      exact ih ((cand + 1) % UINT8_MOD) (Nat.mod_lt _ (by decide))
        ⟨j - 1, by omega, hrw⟩ t ht
    · have hres : find_next_timer_id_loop timers cand (n+1) = cand := by
        simp [find_next_timer_id_loop, hany]
      rw [hres]
      have hfalse : timers.any (fun t => t.id = cand) = false := by
        cases hval : timers.any (fun t => t.id = cand) with
        | false => rfl
        | true => exact absurd hval hany
      have := List.any_eq_false.mp hfalse t ht
      simpa using this

/-- With at most 8 slots, some id among any 9 consecutive candidates is
free (pigeonhole), so `find_next_timer_id` always returns an id held by
no slot. -/
theorem find_next_timer_id_free (ts : TimerState) (hlen : ts.timers.length ≤ 8)
    (hcand : ts.next_timer_id < UINT8_MOD) :
    ∀ t ∈ ts.timers, t.id ≠ (find_next_timer_id ts).1 := by
  have hnine : ∃ j, j < 9 ∧ ∀ t ∈ ts.timers, t.id ≠ (ts.next_timer_id + j) % UINT8_MOD := by
    by_contra hno
    push_neg at hno
    have hsub : (Finset.range 9).image (fun j => (ts.next_timer_id + j) % UINT8_MOD) ⊆
        (ts.timers.map (fun t => t.id)).toFinset := by
      intro v hv
      rcases Finset.mem_image.mp hv with ⟨j, hj, rfl⟩
      rcases hno j (Finset.mem_range.mp hj) with ⟨t, ht, htid⟩
      rw [List.mem_toFinset, List.mem_map]
      exact ⟨t, ht, htid⟩
    have hcard : ((Finset.range 9).image
        (fun j => (ts.next_timer_id + j) % UINT8_MOD)).card = 9 := by
      rw [Finset.card_image_of_injOn, Finset.card_range]
      intro a ha b hb hab
      simp only [Finset.coe_range, Set.mem_Iio] at ha hb
      simp only [UINT8_MOD] at hab
      omega
    have h9 : (9:Nat) ≤ 8 := by
      calc (9:Nat) = _ := hcard.symm
        _ ≤ (ts.timers.map (fun t => t.id)).toFinset.card := Finset.card_le_card hsub
        _ ≤ (ts.timers.map (fun t => t.id)).length := List.toFinset_card_le _
        _ = ts.timers.length := List.length_map _ _
        _ ≤ 8 := hlen
    omega
  rcases hnine with ⟨j, hj9, hfree⟩
  have h9 : (9:Nat) < UINT8_MOD := by decide
  exact find_next_timer_id_loop_free ts.timers UINT8_MOD ts.next_timer_id hcand
    ⟨j, by omega, hfree⟩

/-! ## C8: re-arming a live timer by callback -/

/-- C8: if a first `set_timer` call armed a fresh slot for callback `cb`
(which owned no live slot) and that timer is still live, a second
`set_timer` with the same callback returns the same handle, allocates no
new pool slot (the active-timer count is unchanged), and resets the
slot's countdown to the new timeout and its repeat flag to the new value.
The two well-formedness hypotheses (`MAX_TIMERS` pool slots, `uint8_t` id
counter) hold in every state the C module can be in. -/
theorem claim_C8_rearm_idempotent (t1 t2 : Nat) (cb : Nat) (r1 r2 : Bool) (s0 : TimerState)
    (hlen : s0.timers.length = MAX_TIMERS)
    (hnext : s0.next_timer_id < UINT8_MOD)
    (hfresh : ∀ t ∈ s0.timers, t.callback ≠ some cb)
    (h1 : (set_timer t1 cb r1 s0).1 ≠ INVALID_TIMER_ID) :
    (set_timer t2 cb r2 (set_timer t1 cb r1 s0).2).1 = (set_timer t1 cb r1 s0).1 ∧
    timer_active_count (set_timer t2 cb r2 (set_timer t1 cb r1 s0).2).2 =
      timer_active_count (set_timer t1 cb r1 s0).2 ∧
    get_timer_remaining (set_timer t1 cb r1 s0).1
      (set_timer t2 cb r2 (set_timer t1 cb r1 s0).2).2 = t2 ∧
    is_timer_repeating (set_timer t1 cb r1 s0).1
      (set_timer t2 cb r2 (set_timer t1 cb r1 s0).2).2 = r2 := by
  have hf0 : find_timer_id_by_callback s0 cb = INVALID_TIMER_ID := by
    have hn : s0.timers.find? (fun t => t.callback = some cb) = none :=
      List.find?_eq_none.mpr (fun t ht => by simpa using hfresh t ht)
    simp [find_timer_id_by_callback, hn]
  obtain ⟨i, hav⟩ : ∃ i, find_available_timer_index s0 = some i := by
    cases hav2 : find_available_timer_index s0 with
    | some i => exact ⟨i, rfl⟩
    | none => exact absurd (by simp [set_timer, hf0, hav2]) h1
  have hi : i < s0.timers.length := by
    unfold find_available_timer_index at hav
    exact (List.findIdx?_eq_some_iff_findIdx_eq.mp hav).1
  have hfree : ∀ t ∈ s0.timers, t.id ≠ (find_next_timer_id s0).1 :=
    find_next_timer_id_free s0 (by rw [hlen]; decide) hnext
  have e1 : set_timer t1 cb r1 s0 =
      ((find_next_timer_id s0).1,
        { next_timer_id := (find_next_timer_id s0).1,
          timers := s0.timers.set i ⟨t1, t1, some cb, r1, (find_next_timer_id s0).1⟩ }) := by
    simp [set_timer, hf0, hav, find_next_timer_id]
  rw [e1] at h1 ⊢
  generalize hnid : (find_next_timer_id s0).1 = nid at h1 hfree ⊢
  dsimp only at h1 ⊢
  set sl1 : CTimer := ⟨t1, t1, some cb, r1, nid⟩ with hsl1
  set s1 : TimerState := { next_timer_id := nid, timers := s0.timers.set i sl1 } with hs1def
  have hlen1 : s1.timers.length = s0.timers.length := List.length_set _ _ _
  have hi1 : i < s1.timers.length := by rw [hlen1]; exact hi
  have hgetself : s1.timers[i] = sl1 := List.getElem_set_self _
  have hother : ∀ j (hj : j < s1.timers.length) (hj0 : j < s0.timers.length), j ≠ i →
      s1.timers[j] = s0.timers[j] := by
    intro j hj hj0 hne
    exact List.getElem_set_ne (Ne.symm hne) _
  have hmem : sl1 ∈ s1.timers := hgetself ▸ List.getElem_mem hi1
  -- the second lookup by callback finds exactly the fresh slot
  have hf1 : find_timer_id_by_callback s1 cb = nid := by
    cases hfind : s1.timers.find? (fun t => t.callback = some cb) with
    | none =>
      exfalso
      have := List.find?_eq_none.mp hfind sl1 hmem
      simp [hsl1] at this
    | some t =>
      have hp := List.find?_some hfind
      have hm := List.mem_of_find?_eq_some hfind
      rcases List.mem_or_eq_of_mem_set hm with hm0 | rfl
      · exfalso
        have := hfresh t hm0
        simp only [decide_eq_true_eq] at hp
        exact this hp
      · simp [find_timer_id_by_callback, hfind, hsl1]
  have hidx1 : find_timer_index_by_id s1 nid = some i := by
    apply find_timer_index_unique s1 i nid hi1
    · rw [hgetself]
    · intro j hj hne
      have hj0 : j < s0.timers.length := by rw [← hlen1]; exact hj
      rw [hother j hj hj0 hne]
      exact hfree _ (List.getElem_mem _)
  have hgetD1 : s1.timers.getD i default = sl1 := by
    rw [List.getD_eq_getElem _ _ hi1, hgetself]
  have hget? : (s0.timers.set i (⟨t1, t1, some cb, r1, nid⟩ : CTimer))[i]? =
      some (⟨t1, t1, some cb, r1, nid⟩ : CTimer) := by
    rw [List.getElem?_eq_getElem (by simpa using hi)]
    exact congrArg some (List.getElem_set_self _)
  have e2 : set_timer t2 cb r2 s1 =
      (nid, { next_timer_id := nid, timers := s1.timers.set i ⟨t2, t2, some cb, r2, nid⟩ }) := by
    simp [set_timer, hf1, h1, hidx1, hgetD1, hsl1, hs1def, hget?]
  rw [e2]
  set sl2 : CTimer := ⟨t2, t2, some cb, r2, nid⟩ with hsl2
  set s2 : TimerState := { next_timer_id := nid, timers := s1.timers.set i sl2 } with hs2def
  have hlen2 : s2.timers.length = s1.timers.length := List.length_set _ _ _
  have hi2 : i < s2.timers.length := by rw [hlen2]; exact hi1
  have hgetself2 : s2.timers[i] = sl2 := List.getElem_set_self _
  have hidx2 : find_timer_index_by_id s2 nid = some i := by
    apply find_timer_index_unique s2 i nid hi2
    · rw [hgetself2]
    · intro j hj hne
      have hj1 : j < s1.timers.length := by rw [← hlen2]; exact hj
      have hj0 : j < s0.timers.length := by rw [← hlen1]; exact hj1
      have hstep : s2.timers[j] = s1.timers[j] := List.getElem_set_ne (Ne.symm hne) _
      rw [hstep, hother j hj1 hj0 hne]
      exact hfree _ (List.getElem_mem _)
  refine ⟨rfl, ?_, ?_, ?_⟩
  · -- active count unchanged: the re-arm writes a slot with the same callback
    show (s2.timers.filter (fun t => t.callback ≠ none)).length =
      (s1.timers.filter (fun t => t.callback ≠ none)).length
    rw [← List.countP_eq_length_filter, ← List.countP_eq_length_filter]
    have ht2 : s2.timers = s1.timers.set i sl2 := by rw [hs2def]
    rw [ht2]
    exact countP_set_preserve _ s1.timers i sl2 hi1 (by rw [hgetself])
  · -- remaining countdown reset to t2
    show get_timer_remaining nid s2 = t2
    unfold get_timer_remaining
    rw [if_pos h1, hidx2]
    dsimp only
    rw [List.getD_eq_getElem _ _ hi2, hgetself2]
  · -- repeat flag reset to r2
    show is_timer_repeating nid s2 = r2
    unfold is_timer_repeating
    rw [if_pos h1, hidx2]
    dsimp only
    rw [List.getD_eq_getElem _ _ hi2, hgetself2]

/-- C8 witness: a fresh pool, armed for callback 7 with timeout 5 then
re-armed with timeout 9 and repeat. -/
theorem claim_C8_witness :
    (set_timer 9 7 true (set_timer 5 7 false timer_init).2).1 =
      (set_timer 5 7 false timer_init).1 ∧
    timer_active_count (set_timer 9 7 true (set_timer 5 7 false timer_init).2).2 =
      timer_active_count (set_timer 5 7 false timer_init).2 ∧
    get_timer_remaining (set_timer 5 7 false timer_init).1
      (set_timer 9 7 true (set_timer 5 7 false timer_init).2).2 = 9 ∧
    is_timer_repeating (set_timer 5 7 false timer_init).1
      (set_timer 9 7 true (set_timer 5 7 false timer_init).2).2 = true :=
  claim_C8_rearm_idempotent 5 9 7 false true timer_init (by decide) (by decide)
    (by decide) (by decide)

/-- A tick-handler slot iteration skips a free slot. -/
theorem timer_tick_slot_skip (eff : Nat → Nat → TimerState → TimerState) (tick : Nat)
    (ts : TimerState) (tr : List Nat) (i : Nat)
    (h : (ts.timers.getD i default).callback = none) :
    timer_tick_slot eff tick (ts, tr) i = (ts, tr) := by
  unfold timer_tick_slot
  dsimp only
  rw [h]

/-- A tick-handler slot iteration on a live slot whose decremented
counter `c2` is nonzero just stores the new counter: the callback is not
invoked. -/
theorem timer_tick_slot_live_nofire (eff : Nat → Nat → TimerState → TimerState) (tick : Nat)
    (ts : TimerState) (tr : List Nat) (i : Nat) (cbv c2 : Nat)
    (hcb : (ts.timers.getD i default).callback = some cbv)
    (hc2 : ((ts.timers.getD i default).counter + (UINT32_MOD - 1)) % UINT32_MOD = c2)
    (hne : c2 ≠ 0) :
    timer_tick_slot eff tick (ts, tr) i =
      ({ ts with timers := ts.timers.set i (tick_dec_to (ts.timers.getD i default) c2) },
        tr) := by
  unfold timer_tick_slot tick_dec_to
  dsimp only
  rw [hcb]
  dsimp only
  rw [hc2, if_neg hne]

/-! ## C10: zero-timeout timer wraps -/

/-- C10: arming a timer with timeout 0 for a callback that owns no live
slot (fresh pool) yields a valid handle whose counter is 0; on the next
system tick the handler decrements the `uint32_t` counter before testing
it for zero, wrapping it to `2^32 - 1`, so the callback does not fire on
that tick — the timer behaves as if armed with `2^32` milliseconds.
`eff` ranges over every possible behaviour of other timers' callbacks; on
the fresh pool only our slot is occupied, so no callback runs at all. -/
theorem claim_C10_zero_timeout_wraps (cb : Nat) (rep : Bool)
    (eff : Nat → Nat → TimerState → TimerState) (tick : Nat) :
    (set_timer 0 cb rep timer_init).1 ≠ INVALID_TIMER_ID ∧
    get_timer_remaining (set_timer 0 cb rep timer_init).1 (set_timer 0 cb rep timer_init).2 = 0 ∧
    is_timer_active (set_timer 0 cb rep timer_init).1 (set_timer 0 cb rep timer_init).2 = true ∧
    (timer_system_tick_event_handler eff tick (set_timer 0 cb rep timer_init).2).2 = [] ∧
    get_timer_remaining (set_timer 0 cb rep timer_init).1
      (timer_system_tick_event_handler eff tick (set_timer 0 cb rep timer_init).2).1 =
      UINT32_MOD - 1 := by
  have e1 : (set_timer 0 cb rep timer_init).1 = 1 := rfl
  have e2 : (set_timer 0 cb rep timer_init).2 = tsZeroArmed cb rep := rfl
  have hcount : ((tsZeroArmed cb rep).timers.getD 0 default).counter = 0 := rfl
  have h0 := timer_tick_slot_live_nofire eff tick (tsZeroArmed cb rep) [] 0 cb
    (UINT32_MOD - 1) rfl (by rw [hcount]; rfl) (by decide)
  have h0s : timer_tick_slot eff tick (tsZeroArmed cb rep, []) 0 =
      (tsZeroTicked cb rep, []) := by
    rw [h0]
    rfl
  have t0 : timer_system_tick_event_handler eff tick (tsZeroArmed cb rep) =
      List.foldl (timer_tick_slot eff tick) (tsZeroTicked cb rep, []) [1,2,3,4,5,6,7] := by
    unfold timer_system_tick_event_handler
    rw [show List.range MAX_TIMERS = [0,1,2,3,4,5,6,7] from rfl]
    rw [List.foldl_cons, h0s]
  have hstep : ∀ (j : Nat) (l : List Nat),
      ((tsZeroTicked cb rep).timers.getD j default).callback = none →
      List.foldl (timer_tick_slot eff tick) (tsZeroTicked cb rep, []) (j :: l) =
        List.foldl (timer_tick_slot eff tick) (tsZeroTicked cb rep, []) l := by
    intro j l hj
    rw [List.foldl_cons, timer_tick_slot_skip eff tick (tsZeroTicked cb rep) [] j hj]
  have htick : timer_system_tick_event_handler eff tick (tsZeroArmed cb rep) =
      (tsZeroTicked cb rep, []) := by
    rw [t0, hstep 1 _ rfl, hstep 2 _ rfl, hstep 3 _ rfl, hstep 4 _ rfl, hstep 5 _ rfl,
      hstep 6 _ rfl, hstep 7 _ rfl, List.foldl_nil]
  rw [e1, e2, htick]
  refine ⟨by decide, rfl, ?_, rfl, rfl⟩
  unfold is_timer_active
  rw [if_pos (by decide : (1:Nat) ≠ INVALID_TIMER_ID)]
  rw [show find_timer_index_by_id (tsZeroArmed cb rep) 1 = some 0 from rfl]
  dsimp only
  rw [show (tsZeroArmed cb rep).timers.getD 0 default =
    (⟨0, 0, some cb, rep, 1⟩ : CTimer) from rfl]
  simp

/-! ## Helper lemmas: the subscriber table (for C1) -/

/-- `getD` after `set` at a different index. -/
theorem getD_set_ne_idx {α : Type} [Inhabited α] (l : List α) (k i : Nat) (v : α)
    (h : i ≠ k) : (l.set k v).getD i default = l.getD i default := by
  simp [List.getD_eq_getElem?_getD, List.getElem?_set_ne (Ne.symm h)]

/-- `getD` after `set` at the same (in-range) index. -/
theorem getD_set_self_idx {α : Type} [Inhabited α] (l : List α) (k : Nat) (v : α)
    (h : k < l.length) : (l.set k v).getD k default = v := by
  have h2 : k < (l.set k v).length := by simpa using h
  rw [List.getD_eq_getElem _ _ h2, List.getElem_set_self]

/-- Every `getD` from a replicated list yields the replicated element. -/
theorem getD_replicate_default {α : Type} [Inhabited α] (n i : Nat) :
    (List.replicate n (default : α)).getD i default = default := by
  rcases Nat.lt_or_ge i n with h | h
  · simp [List.getD_eq_getElem?_getD, List.getElem?_replicate, h]
  · simp [List.getD_eq_getElem?_getD, List.getElem?_replicate, Nat.not_lt.mpr h]

/-- A chain is untouched by a write to a slot whose stored event kind
differs from the chain's event. -/
theorem ChainOK_set_preserve (subs : List SubscriberStruct) (e n k : Nat)
    (v : SubscriberStruct) (hk : (subs.getD k default).event ≠ e) :
    ∀ cbs idx, ChainOK subs e n idx cbs → ChainOK (subs.set k v) e n idx cbs := by
  intro cbs
  induction cbs with
  | nil => intro idx h; exact False.elim h
  | cons c rest ih =>
    intro idx h
    cases rest with
    | nil =>
      have hslot : subs.getD idx default = ⟨e, some c, 0⟩ := h
      have hne : idx ≠ k := fun hik => hk (by rw [← hik, hslot])
      show (subs.set k v).getD idx default = ⟨e, some c, 0⟩
      rw [getD_set_ne_idx _ _ _ _ hne]
      exact hslot
    | cons r t =>
      have h' : ∃ j, subs.getD idx default = ⟨e, some c, j⟩ ∧ idx < j ∧ j < n ∧
          ChainOK subs e n j (r :: t) := h
      obtain ⟨j, hslot, hij, hjn, hch⟩ := h'
      have hne : idx ≠ k := fun hik => hk (by rw [← hik, hslot])
      exact ⟨j, by rw [getD_set_ne_idx _ _ _ _ hne]; exact hslot, hij, hjn, ih j hch⟩

/-- Chains are monotone in the link bound. -/
theorem ChainOK_mono (subs : List SubscriberStruct) (e n n' : Nat) (hnn : n ≤ n') :
    ∀ cbs idx, ChainOK subs e n idx cbs → ChainOK subs e n' idx cbs := by
  intro cbs
  induction cbs with
  | nil => intro idx h; exact False.elim h
  | cons c rest ih =>
    intro idx h
    cases rest with
    | nil => exact h
    | cons r t =>
      have h' : ∃ j, subs.getD idx default = ⟨e, some c, j⟩ ∧ idx < j ∧ j < n ∧
          ChainOK subs e n j (r :: t) := h
      obtain ⟨j, hslot, hij, hjn, hch⟩ := h'
      exact ⟨j, hslot, hij, Nat.lt_of_lt_of_le hjn hnn, ih j hch⟩

/-- Walking `next` links from slot 0 notifies nobody (the loop guard
fails immediately). -/
theorem notify_from_zero (subs : List SubscriberStruct) (e d : Nat) (fuel : Nat) :
    notify_from subs e d 0 fuel = [] := by
  cases fuel with
  | zero => rfl
  | succ f => simp [notify_from]

/-- Traversing a well-formed chain invokes exactly its callbacks, in
chain order, given enough fuel (links strictly increase below `n`). -/
theorem notify_from_chain (subs : List SubscriberStruct) (e d n : Nat) (hn : n ≤ SUBSCRIBER_TABLE_SIZE) :
    ∀ cbs idx fuel, ChainOK subs e n idx cbs → 0 < idx → idx < n → n ≤ idx + fuel →
    notify_from subs e d idx fuel = cbs.map (fun cb => (cb, e, d)) := by
  intro cbs
  induction cbs with
  | nil => intro idx fuel h; exact False.elim h
  | cons c rest ih =>
    intro idx fuel h hpos hin hfuel
    have hfuel1 : ∃ f, fuel = f + 1 := by
      cases fuel with
      | zero => omega
      | succ f => exact ⟨f, rfl⟩
    obtain ⟨f, rfl⟩ := hfuel1
    have hsts : SUBSCRIBER_TABLE_SIZE = 59 := rfl
    have hguard : idx ≠ 0 ∧ idx < SUBSCRIBER_TABLE_SIZE := by
      constructor
      · omega
      · omega
    cases rest with
    | nil =>
      have hslot : subs.getD idx default = ⟨e, some c, 0⟩ := h
      rw [show notify_from subs e d idx (f + 1) =
          (if idx ≠ 0 ∧ idx < SUBSCRIBER_TABLE_SIZE then
            (match (subs.getD idx default).callback with
             | some cb => [(cb, e, d)]
             | none => []) ++ notify_from subs e d (subs.getD idx default).next f
          else []) from rfl]
      rw [if_pos hguard, hslot]
      simp [notify_from_zero]
    | cons r t =>
      have h' : ∃ j, subs.getD idx default = ⟨e, some c, j⟩ ∧ idx < j ∧ j < n ∧
          ChainOK subs e n j (r :: t) := h
      obtain ⟨j, hslot, hij, hjn, hch⟩ := h'
      rw [show notify_from subs e d idx (f + 1) =
          (if idx ≠ 0 ∧ idx < SUBSCRIBER_TABLE_SIZE then
            (match (subs.getD idx default).callback with
             | some cb => [(cb, e, d)]
             | none => []) ++ notify_from subs e d (subs.getD idx default).next f
          else []) from rfl]
      rw [if_pos hguard, hslot]
      have hrec := ih j f hch (by omega) hjn (by omega)
      simpa using hrec

/-- `find_chain_end` on a well-formed chain reaches the chain's last
slot, and rewriting that slot's link to a fresh index while writing the
new callback there extends the chain by one. -/
theorem ChainOK_append (subs : List SubscriberStruct)
    (hlen : subs.length = SUBSCRIBER_TABLE_SIZE) (e cb n nsi : Nat) (hn : n ≤ nsi)
    (hnsi : nsi < SUBSCRIBER_TABLE_SIZE) :
    ∀ cbs idx fuel, ChainOK subs e n idx cbs → idx < n → n ≤ idx + fuel →
    idx ≤ find_chain_end subs idx fuel ∧
    find_chain_end subs idx fuel < n ∧
    (subs.getD (find_chain_end subs idx fuel) default).event = e ∧
    ChainOK
      ((subs.set nsi ⟨e, some cb, 0⟩).set (find_chain_end subs idx fuel)
        { (subs.set nsi ⟨e, some cb, 0⟩).getD (find_chain_end subs idx fuel) default with
          next := nsi })
      e (nsi + 1) idx (cbs ++ [cb]) := by
  intro cbs
  induction cbs with
  | nil => intro idx fuel h; exact False.elim h
  | cons c rest ih =>
    intro idx fuel h hin hfuel
    have hfuel1 : ∃ f, fuel = f + 1 := by
      cases fuel with
      | zero => omega
      | succ f => exact ⟨f, rfl⟩
    obtain ⟨f, rfl⟩ := hfuel1
    have hsts : SUBSCRIBER_TABLE_SIZE = 59 := rfl
    cases rest with
    | nil =>
      have hslot : subs.getD idx default = ⟨e, some c, 0⟩ := h
      have hend : find_chain_end subs idx (f + 1) = idx := by
        show (if (subs.getD idx default).next ≠ 0 then
            find_chain_end subs (subs.getD idx default).next f else idx) = idx
        rw [hslot]
        simp
      rw [hend]
      refine ⟨Nat.le_refl idx, hin, by rw [hslot], ?_⟩
      have hine : idx ≠ nsi := by omega
      have hlen1 : idx < (subs.set nsi ⟨e, some cb, 0⟩).length := by
        rw [List.length_set, hlen]
        omega
      have hlen2 : nsi < subs.length := by
        rw [hlen]
        omega
      have hslot1 : (subs.set nsi ⟨e, some cb, 0⟩).getD idx default = ⟨e, some c, 0⟩ := by
        rw [getD_set_ne_idx _ _ _ _ hine]; exact hslot
      rw [hslot1]
      refine ⟨nsi, ?_, by omega, by omega, ?_⟩
      · exact getD_set_self_idx _ _ _ hlen1
      · show ((subs.set nsi ⟨e, some cb, 0⟩).set idx ⟨e, some c, nsi⟩).getD nsi default =
          ⟨e, some cb, 0⟩
        have hne2 : nsi ≠ idx := by omega
        rw [getD_set_ne_idx _ _ _ _ hne2]
        exact getD_set_self_idx _ _ _ hlen2
    | cons r t =>
      have h' : ∃ j, subs.getD idx default = ⟨e, some c, j⟩ ∧ idx < j ∧ j < n ∧
          ChainOK subs e n j (r :: t) := h
      obtain ⟨j, hslot, hij, hjn, hch⟩ := h'
      have hend : find_chain_end subs idx (f + 1) = find_chain_end subs j f := by
        show (if (subs.getD idx default).next ≠ 0 then
            find_chain_end subs (subs.getD idx default).next f else idx) = _
        rw [hslot]
        show (if j ≠ 0 then find_chain_end subs j f else idx) = _
        rw [if_pos (by omega : j ≠ 0)]
      obtain ⟨h1, h2, h3, h4⟩ := ih j f hch hjn (by omega)
      rw [hend]
      refine ⟨by omega, h2, h3, ?_⟩
      refine ⟨j, ?_, hij, by omega, h4⟩
      have hne1 : idx ≠ find_chain_end subs j f := by omega
      have hne2 : idx ≠ nsi := by omega
      rw [getD_set_ne_idx _ _ _ _ hne1, getD_set_ne_idx _ _ _ _ hne2]
      exact hslot

/-- Appending one subscription op extends exactly its own event's
callback list. -/
theorem subscribed_callbacks_append_single (ops : List (Nat × Nat)) (e₀ cb e : Nat) :
    subscribed_callbacks (ops ++ [(e₀, cb)]) e =
      subscribed_callbacks ops e ++ (if e₀ = e then [cb] else []) := by
  by_cases h : e₀ = e <;>
    simp [subscribed_callbacks, List.filter_append, h]

/-- The table invariant holds after any in-range subscription sequence of
at most `MAX_SUBSCRIPTIONS` operations. -/
theorem subs_inv : ∀ (ops : List (Nat × Nat)),
    (∀ op ∈ ops, 0 < op.1 ∧ op.1 < NUMBER_OF_EVENTS) →
    ops.length ≤ MAX_SUBSCRIPTIONS →
    SubsInv ops (apply_subscribes ops event_queue_init) := by
  intro ops
  induction ops using List.reverseRecOn with
  | nil =>
    intro _ _
    refine ⟨rfl, rfl, rfl, rfl, Nat.le_refl _, by decide, by decide, ?_, ?_⟩
    · intro j _
      exact getD_replicate_default _ _
    · intro e _ _
      exact ⟨fun _ => getD_replicate_default _ _, fun hne => absurd rfl hne⟩
  | append_singleton ops op ihind =>
    intro hops hlen
    obtain ⟨e₀, cb⟩ := op
    have hne27 : NUMBER_OF_EVENTS = 27 := rfl
    have hms : MAX_SUBSCRIPTIONS = 32 := rfl
    have hsts : SUBSCRIBER_TABLE_SIZE = 59 := rfl
    have hev0 : EVENT_NULL = 0 := rfl
    have hop : 0 < e₀ ∧ e₀ < NUMBER_OF_EVENTS := hops (e₀, cb) (by simp)
    have hopsrest : ∀ o ∈ ops, 0 < o.1 ∧ o.1 < NUMBER_OF_EVENTS :=
      fun o ho => hops o (by simp [ho])
    have hlenrest : ops.length ≤ MAX_SUBSCRIPTIONS := by
      simp only [List.length_append, List.length_cons, List.length_nil] at hlen
      omega
    have hlen1 : ops.length + 1 ≤ MAX_SUBSCRIPTIONS := by
      simp only [List.length_append, List.length_cons, List.length_nil] at hlen
      omega
    set s : EqState := apply_subscribes ops event_queue_init with hsdef
    have IH := ihind hopsrest hlenrest
    have hstep : apply_subscribes (ops ++ [(e₀, cb)]) event_queue_init =
        (subscribe_event e₀ cb s).2 := by
      rw [hsdef]
      simp [apply_subscribes, List.foldl_append]
    rw [hstep]
    have hcond1 : e₀ < NUMBER_OF_EVENTS ∧ e₀ ≠ EVENT_NULL := ⟨hop.2, by omega⟩
    by_cases hemp : subscribed_callbacks ops e₀ = []
    · -- slot `e₀` is blank: `subscribe_event` writes the head slot
      have hslot : s.subscribers.getD e₀ default = default :=
        (IH.chains e₀ hop.1 hop.2).1 hemp
      have hsub : (subscribe_event e₀ cb s).2 =
          { s with subscribers := s.subscribers.set e₀ ⟨e₀, some cb, 0⟩ } := by
        unfold subscribe_event
        rw [if_pos hcond1,
          if_pos (show (s.subscribers.getD e₀ default).callback = none by rw [hslot]; rfl)]
      rw [hsub]
      refine ⟨IH.head, IH.tail, IH.qlen, ?_, IH.nsi_lo, ?_, IH.nsi_cap, ?_, ?_⟩
      · dsimp only
        rw [List.length_set]
        exact IH.slen
      · have := IH.nsi_hi
        show s.next_subscriber_index ≤ NUMBER_OF_EVENTS + (ops ++ [(e₀, cb)]).length
        simp only [List.length_append, List.length_cons, List.length_nil]
        omega
      · intro j hj
        have hj' : s.next_subscriber_index ≤ j := hj
        have hje : j ≠ e₀ := by
          have := IH.nsi_lo
          omega
        dsimp only
        rw [getD_set_ne_idx _ _ _ _ hje]
        exact IH.fresh j hj'
      · intro e he1 he2
        rw [subscribed_callbacks_append_single]
        by_cases he : e₀ = e
        · subst he
          rw [if_pos rfl, hemp]
          constructor
          · intro h
            simp at h
          · intro _
            show (s.subscribers.set e₀ ⟨e₀, some cb, 0⟩).getD e₀ default = ⟨e₀, some cb, 0⟩
            refine getD_set_self_idx _ _ _ ?_
            rw [IH.slen]
            omega
        · rw [if_neg he, List.append_nil]
          have hee : e ≠ e₀ := fun hh => he hh.symm
          constructor
          · intro hempe
            dsimp only
            rw [getD_set_ne_idx _ _ _ _ hee]
            exact (IH.chains e he1 he2).1 hempe
          · intro hnee
            dsimp only
            apply ChainOK_set_preserve
            · rw [hslot]
              show (0 : Nat) ≠ e
              omega
            · exact (IH.chains e he1 he2).2 hnee
    · -- slot `e₀` is taken: `subscribe_event` appends via the overflow
      -- region
      have hchain := (IH.chains e₀ hop.1 hop.2).2 hemp
      obtain ⟨c, rest, hcbs⟩ : ∃ c rest, subscribed_callbacks ops e₀ = c :: rest := by
        cases hx : subscribed_callbacks ops e₀ with
        | nil => exact absurd hx hemp
        | cons a b => exact ⟨a, b, rfl⟩
      have hcb : (s.subscribers.getD e₀ default).callback = some c := by
        rw [hcbs] at hchain
        cases rest with
        | nil =>
          rw [(hchain : s.subscribers.getD e₀ default = ⟨e₀, some c, 0⟩)]
        | cons r t =>
          have hx : ∃ j, s.subscribers.getD e₀ default = ⟨e₀, some c, j⟩ ∧ e₀ < j ∧
              j < s.next_subscriber_index ∧
              ChainOK s.subscribers e₀ s.next_subscriber_index j (r :: t) := hchain
          obtain ⟨j, hslot, -, -, -⟩ := hx
          rw [hslot]
      have hnsilen : s.next_subscriber_index < SUBSCRIBER_TABLE_SIZE := by
        have h1 := IH.nsi_hi
        omega
      have hsub : (subscribe_event e₀ cb s).2 =
          { s with
            subscribers :=
              ((s.subscribers.set s.next_subscriber_index ⟨e₀, some cb, 0⟩).set
                (find_chain_end s.subscribers e₀ SUBSCRIBER_TABLE_SIZE)
                { (s.subscribers.set s.next_subscriber_index ⟨e₀, some cb, 0⟩).getD
                    (find_chain_end s.subscribers e₀ SUBSCRIBER_TABLE_SIZE) default with
                  next := s.next_subscriber_index }),
            next_subscriber_index := s.next_subscriber_index + 1 } := by
        unfold subscribe_event
        rw [if_pos hcond1, if_neg (show ¬(s.subscribers.getD e₀ default).callback = none by
          rw [hcb]; simp), if_pos hnsilen]
      rw [hsub]
      have happ := ChainOK_append s.subscribers IH.slen e₀ cb s.next_subscriber_index
        s.next_subscriber_index (Nat.le_refl _) hnsilen (subscribed_callbacks ops e₀) e₀
        SUBSCRIBER_TABLE_SIZE hchain
        (by have := IH.nsi_lo; omega)
        (by have := IH.nsi_cap; omega)
      obtain ⟨ha1, ha2, ha3, ha4⟩ := happ
      refine ⟨IH.head, IH.tail, IH.qlen, ?_, ?_, ?_, ?_, ?_, ?_⟩
      · dsimp only
        simp only [List.length_set]
        exact IH.slen
      · have := IH.nsi_lo
        show NUMBER_OF_EVENTS ≤ s.next_subscriber_index + 1
        omega
      · have := IH.nsi_hi
        show s.next_subscriber_index + 1 ≤ NUMBER_OF_EVENTS + (ops ++ [(e₀, cb)]).length
        simp only [List.length_append, List.length_cons, List.length_nil]
        omega
      · show s.next_subscriber_index + 1 ≤ SUBSCRIBER_TABLE_SIZE
        omega
      · intro j hj
        have hj' : s.next_subscriber_index + 1 ≤ j := hj
        have hne1 : j ≠ find_chain_end s.subscribers e₀ SUBSCRIBER_TABLE_SIZE := by omega
        have hne2 : j ≠ s.next_subscriber_index := by omega
        dsimp only
        rw [getD_set_ne_idx _ _ _ _ hne1, getD_set_ne_idx _ _ _ _ hne2]
        exact IH.fresh j (by omega)
      · intro e he1 he2
        rw [subscribed_callbacks_append_single]
        by_cases he : e₀ = e
        · subst he
          rw [if_pos rfl]
          constructor
          · intro h
            rw [hcbs] at h
            simp at h
          · intro _
            dsimp only
            exact ha4
        · rw [if_neg he, List.append_nil]
          have hee : e ≠ e₀ := fun hh => he hh.symm
          constructor
          · intro hempe
            have hemp_slot := (IH.chains e he1 he2).1 hempe
            have hnel : e ≠ find_chain_end s.subscribers e₀ SUBSCRIBER_TABLE_SIZE := by
              intro hh
              rw [← hh, hemp_slot] at ha3
              have h0 : (0 : Nat) = e₀ := ha3
              omega
            have hnen : e ≠ s.next_subscriber_index := by
              have := IH.nsi_lo
              omega
            dsimp only
            rw [getD_set_ne_idx _ _ _ _ hnel, getD_set_ne_idx _ _ _ _ hnen]
            exact hemp_slot
          · intro hnee
            dsimp only
            apply ChainOK_mono _ e s.next_subscriber_index _ (Nat.le_succ _)
            apply ChainOK_set_preserve
            · have hne : find_chain_end s.subscribers e₀ SUBSCRIBER_TABLE_SIZE ≠
                  s.next_subscriber_index := by omega
              rw [getD_set_ne_idx _ _ _ _ hne, ha3]
              omega
            · apply ChainOK_set_preserve
              · rw [IH.fresh _ (Nat.le_refl _)]
                show (0 : Nat) ≠ e
                omega
              · exact (IH.chains e he1 he2).2 hnee

/-- Under the table invariant, notifying a valid event invokes exactly
its subscribed callbacks, in subscription order. -/
theorem notify_subscribers_good (ops : List (Nat × Nat)) (s : EqState)
    (hinv : SubsInv ops s) :
    ∀ e d, 0 < e → e < NUMBER_OF_EVENTS →
    notify_subscribers s.subscribers ⟨e, d⟩ =
      (subscribed_callbacks ops e).map (fun cb => (cb, e, d)) := by
  intro e d he1 he2
  have hne27 : NUMBER_OF_EVENTS = 27 := rfl
  have hsts : SUBSCRIBER_TABLE_SIZE = 59 := rfl
  by_cases hemp : subscribed_callbacks ops e = []
  · have hslot := (hinv.chains e he1 he2).1 hemp
    rw [hemp]
    show notify_from s.subscribers e d e SUBSCRIBER_TABLE_SIZE = []
    rw [show (SUBSCRIBER_TABLE_SIZE : Nat) = 58 + 1 from rfl]
    show (if e ≠ 0 ∧ e < SUBSCRIBER_TABLE_SIZE then
        (match (s.subscribers.getD e default).callback with
         | some cb => [(cb, e, d)]
         | none => []) ++ notify_from s.subscribers e d (s.subscribers.getD e default).next 58
      else []) = []
    rw [if_pos ⟨by omega, by omega⟩, hslot,
      show (default : SubscriberStruct).callback = none from rfl,
      show (default : SubscriberStruct).next = 0 from rfl]
    simp [notify_from_zero]
  · have hch := (hinv.chains e he1 he2).2 hemp
    show notify_from s.subscribers e d e SUBSCRIBER_TABLE_SIZE = _
    exact notify_from_chain s.subscribers e d s.next_subscriber_index hinv.nsi_cap _ e
      SUBSCRIBER_TABLE_SIZE hch (by omega)
      (by have := hinv.nsi_lo; omega)
      (by have := hinv.nsi_cap; omega)

/-- A within-capacity sequence of valid pushes advances the tail one slot
per event and stores the events in ring order, touching nothing else. -/
theorem apply_pushes_spec : ∀ (ps : List (Nat × EventData)) (s : EqState),
    (∀ p ∈ ps, 0 < p.1 ∧ p.1 < NUMBER_OF_EVENTS) →
    s.event_queue_head = 0 →
    s.event_queue.length = EVENT_QUEUE_SIZE →
    s.event_queue_tail + ps.length + 1 ≤ EVENT_QUEUE_SIZE →
    (apply_pushes ps s).event_queue_head = 0 ∧
    (apply_pushes ps s).subscribers = s.subscribers ∧
    (apply_pushes ps s).next_subscriber_index = s.next_subscriber_index ∧
    (apply_pushes ps s).event_queue.length = EVENT_QUEUE_SIZE ∧
    (apply_pushes ps s).event_queue_tail = s.event_queue_tail + ps.length ∧
    (∀ k, k < s.event_queue_tail →
      (apply_pushes ps s).event_queue.getD k default = s.event_queue.getD k default) ∧
    (∀ k, k < ps.length →
      (apply_pushes ps s).event_queue.getD (s.event_queue_tail + k) default =
        ⟨(ps.getD k default).1, (ps.getD k default).2⟩) := by
  intro ps
  induction ps with
  | nil =>
    intro s _ hhead hqlen _
    exact ⟨hhead, rfl, rfl, hqlen, rfl, fun k _ => rfl, fun k hk => absurd hk (by simp)⟩
  | cons p ps₁ ih =>
    intro s hkinds hhead hqlen hcap
    have hq8 : EVENT_QUEUE_SIZE = 8 := rfl
    have hev0 : EVENT_NULL = 0 := rfl
    simp only [List.length_cons] at hcap
    have hp := hkinds p (List.mem_cons_self p ps₁)
    have hmod : (s.event_queue_tail + 1) % EVENT_QUEUE_SIZE = s.event_queue_tail + 1 :=
      Nat.mod_eq_of_lt (by omega)
    have hpush : (event_queue_push p.1 (some p.2) s).2 =
        { s with
          event_queue_tail := s.event_queue_tail + 1,
          event_queue := s.event_queue.set s.event_queue_tail ⟨p.1, p.2⟩ } := by
      unfold event_queue_push get_free_index
      dsimp only
      rw [hmod, hhead, if_pos (by omega : s.event_queue_tail + 1 ≠ 0)]
      dsimp only
      rw [if_pos (⟨hp.2, by have h0 := hp.1; omega⟩ :
        p.1 < NUMBER_OF_EVENTS ∧ p.1 ≠ EVENT_NULL)]
      rfl
    have happ : apply_pushes (p :: ps₁) s =
        apply_pushes ps₁ (event_queue_push p.1 (some p.2) s).2 := rfl
    rw [happ, hpush]
    have hrec := ih
      { s with
        event_queue_tail := s.event_queue_tail + 1,
        event_queue := s.event_queue.set s.event_queue_tail ⟨p.1, p.2⟩ }
      (fun q hq => hkinds q (List.mem_cons_of_mem p hq))
      hhead
      (by dsimp only; rw [List.length_set]; exact hqlen)
      (by dsimp only; omega)
    obtain ⟨g1, g2, g3, g4, g5, g6, g7⟩ := hrec
    dsimp only at g2 g3 g5 g6 g7
    have htlen : s.event_queue_tail < s.event_queue.length := by
      rw [hqlen]
      omega
    refine ⟨g1, g2, g3, g4, ?_, ?_, ?_⟩
    · rw [g5]
      simp only [List.length_cons]
      omega
    · intro k hk
      rw [g6 k (by omega)]
      exact getD_set_ne_idx _ _ _ _ (by omega)
    · intro k hk
      cases k with
      | zero =>
        have hg := g6 s.event_queue_tail (by omega)
        rw [getD_set_self_idx _ _ _ htlen] at hg
        simpa using hg
      | succ k₁ =>
        have hk₁ : k₁ < ps₁.length := by
          simp only [List.length_cons] at hk
          omega
        have hg := g7 k₁ hk₁
        rw [show s.event_queue_tail + (k₁ + 1) = s.event_queue_tail + 1 + k₁ from by omega]
        rw [hg]
        simp [List.getD_cons_succ]

/-- Draining a queue that holds exactly `ps` (in ring order from the
head) produces the per-event notification traces concatenated in push
order. -/
theorem pop_loop_trace (F : Nat → List Nat) :
    ∀ (ps : List (Nat × EventData)) (s : EqState),
    s.event_queue_tail = s.event_queue_head + ps.length →
    s.event_queue_head + ps.length + 1 ≤ EVENT_QUEUE_SIZE →
    (∀ p ∈ ps, 0 < p.1 ∧ p.1 < NUMBER_OF_EVENTS) →
    (∀ k, k < ps.length → s.event_queue.getD (s.event_queue_head + k) default =
      ⟨(ps.getD k default).1, (ps.getD k default).2⟩) →
    (∀ e d, 0 < e → e < NUMBER_OF_EVENTS →
      notify_subscribers s.subscribers ⟨e, d⟩ = (F e).map (fun cb => (cb, e, d))) →
    ∀ fuel, ps.length ≤ fuel →
    (pop_loop s fuel).1 =
      (ps.map (fun p => (F p.1).map (fun cb => (cb, p.1, p.2)))).flatten := by
  intro ps
  induction ps with
  | nil =>
    intro s htail _ _ _ _ fuel _
    simp only [List.length_nil, Nat.add_zero] at htail
    cases fuel with
    | zero => rfl
    | succ f =>
      show (if s.event_queue_head ≠ s.event_queue_tail then _ else ([], s)).1 = _
      rw [if_neg (by omega)]
      rfl
  | cons p ps₁ ih =>
    intro s htail hcap hkinds hslots hnotify fuel hfuel
    have hq8 : EVENT_QUEUE_SIZE = 8 := rfl
    simp only [List.length_cons] at htail hcap hfuel
    obtain ⟨f, rfl⟩ : ∃ f, fuel = f + 1 := by
      cases fuel with
      | zero => omega
      | succ f => exact ⟨f, rfl⟩
    have hne : s.event_queue_head ≠ s.event_queue_tail := by omega
    have hmod : (s.event_queue_head + 1) % EVENT_QUEUE_SIZE = s.event_queue_head + 1 :=
      Nat.mod_eq_of_lt (by omega)
    have hp := hkinds p (List.mem_cons_self p ps₁)
    have hslot0 : s.event_queue.getD s.event_queue_head default = ⟨p.1, p.2⟩ := by
      have hg := hslots 0 (by simp)
      simpa using hg
    show ((if s.event_queue_head ≠ s.event_queue_tail then
        ((notify_subscribers s.subscribers (s.event_queue.getD s.event_queue_head default)) ++
          (pop_loop { s with
            event_queue_head := (s.event_queue_head + 1) % EVENT_QUEUE_SIZE } f).1,
          (pop_loop { s with
            event_queue_head := (s.event_queue_head + 1) % EVENT_QUEUE_SIZE } f).2)
      else ([], s)).1) = _
    rw [if_pos hne, hmod]
    have hrec := ih { s with event_queue_head := s.event_queue_head + 1 }
      (by dsimp only; omega)
      (by dsimp only; omega)
      (fun q hq => hkinds q (List.mem_cons_of_mem p hq))
      (by
        intro k hk
        dsimp only
        have hg := hslots (k + 1) (by simp only [List.length_cons]; omega)
        rw [show s.event_queue_head + 1 + k = s.event_queue_head + (k + 1) from by omega, hg]
        simp [List.getD_cons_succ])
      (by
        intro e d he1 he2
        exact hnotify e d he1 he2)
      f (by omega)
    dsimp only
    rw [hrec, hslot0, hnotify p.1 p.2 hp.1 hp.2]
    simp

/-! ## C1: drain-and-notify is FIFO and exactly-once -/

/-- C1: starting from `event_queue_init`, after any in-range subscription
sequence of at most `MAX_SUBSCRIPTIONS` operations and any sequence of at
most `EVENT_QUEUE_SIZE - 1` successful pushes of valid events,
`event_queue_pop_and_notify` invokes, for each pushed event in exactly
push (FIFO) order, every callback subscribed to that event's kind exactly
once, in subscription order, with that event's payload. -/
theorem claim_C1_fifo_exactly_once (ops : List (Nat × Nat)) (ps : List (Nat × EventData))
    (hops : ∀ op ∈ ops, 0 < op.1 ∧ op.1 < NUMBER_OF_EVENTS)
    (hoplen : ops.length ≤ MAX_SUBSCRIPTIONS)
    (hps : ∀ p ∈ ps, 0 < p.1 ∧ p.1 < NUMBER_OF_EVENTS)
    (hpslen : ps.length ≤ EVENT_QUEUE_SIZE - 1) :
    (event_queue_pop_and_notify (apply_pushes ps (apply_subscribes ops event_queue_init))).1 =
      (ps.map (fun p =>
        (subscribed_callbacks ops p.1).map (fun cb => (cb, p.1, p.2)))).flatten := by
  have hq8 : EVENT_QUEUE_SIZE = 8 := rfl
  set s1 : EqState := apply_subscribes ops event_queue_init with hs1
  have hinv : SubsInv ops s1 := subs_inv ops hops hoplen
  obtain ⟨g1, g2, g3, g4, g5, g6, g7⟩ :=
    apply_pushes_spec ps s1 hps hinv.head hinv.qlen (by rw [hinv.tail]; omega)
  unfold event_queue_pop_and_notify
  apply pop_loop_trace (subscribed_callbacks ops) ps (apply_pushes ps s1)
  · rw [g5, hinv.tail, g1]
  · rw [g1]
    omega
  · exact hps
  · intro k hk
    have hg := g7 k hk
    rw [hinv.tail] at hg
    rw [g1]
    simpa using hg
  · intro e d he1 he2
    rw [g2]
    exact notify_subscribers_good ops s1 hinv e d he1 he2
  · omega

/-- C1 witness: the claim at a concrete table (two subscribers to event
4, one to event 5) and three pushes. -/
theorem claim_C1_witness :
    (event_queue_pop_and_notify (apply_pushes c1ps (apply_subscribes c1ops event_queue_init))).1 =
      (c1ps.map (fun p =>
        (subscribed_callbacks c1ops p.1).map (fun cb => (cb, p.1, p.2)))).flatten :=
  claim_C1_fifo_exactly_once c1ops c1ps (by decide) (by decide) (by decide) (by decide)

end Alcm


